import Mathlib

/-!
Shallow embedding of the PrototypeTrading server-side market engine
(the canonical server implementation: price ledger, chance ledger,
session clock, account store, trade executor, settlement sweeper),
with verification of its specified properties.

JavaScript numbers are modelled as exact rationals (`ℚ`); `x.toFixed(d)`
followed by `parseFloat` is modelled by `toFixed d` (round half towards
positive infinity at `d` decimals, matching `Number.prototype.toFixed`
for the positive values this engine manipulates).  A JS value whose
`Number(...)` coercion is not finite is modelled as `none : Option ℚ`.
JS falsy fallbacks (`x || y`) are modelled by `jsOrQ` / `jsOrStr`.
-/

namespace PrototypeTrading

/- Batteries marks the `Rat` field operations `@[irreducible]`, which blocks
`decide` on concrete rational computations; restore default reducibility for
this development. -/
attribute [local semireducible] Rat.mul Rat.add Rat.sub Rat.inv

/-- `Math.max(min, Math.min(max, value))` from the source `clamp`. -/
def clamp (value lo hi : ℚ) : ℚ := max lo (min hi value)

/-- `parseFloat(x.toFixed(d))`: round to `d` decimal places, ties towards +∞. -/
def toFixed (d : ℕ) (x : ℚ) : ℚ := ((round (x * (10 : ℚ) ^ d) : ℤ) : ℚ) / (10 : ℚ) ^ d

/-- JS `x || fallback` for numbers: `0` (and, at call sites, `NaN`) falls back. -/
def jsOrQ (x fb : ℚ) : ℚ := if x = 0 then fb else x

/-- JS `x || fallback` where `x` is a possibly-missing number (`NaN` = `none`). -/
def jsNumOr (x : Option ℚ) (fb : ℚ) : ℚ :=
  match x with
  | none => fb
  | some v => jsOrQ v fb

/-- JS `x || fallback` for strings: the empty string falls back. -/
def jsOrStr (x : Option String) (fb : String) : String :=
  match x with
  | none => fb
  | some s => if s = "" then fb else s

/-- `toFiniteNumber` from the source: `Number.isFinite(Number(v)) ? Number(v) : fallback`. -/
def toFiniteNumber (value : Option ℚ) (fallback : ℚ) : ℚ := value.getD fallback

/-- JS `String.prototype.trim`: strip leading and trailing whitespace. -/
def jsTrim (s : String) : String :=
  ⟨(((s.toList.dropWhile Char.isWhitespace).reverse.dropWhile Char.isWhitespace).reverse)⟩

/-- JS `list.slice(-n)`: the last `n` elements. -/
def sliceLast (n : ℕ) (l : List α) : List α := l.drop (l.length - n)

inductive Ticker
  | DDR5
  | DDR4
deriving DecidableEq, Repr

instance : Fintype Ticker :=
  ⟨⟨{Ticker.DDR5, Ticker.DDR4}, by decide⟩, fun t => by cases t <;> decide⟩

/-- `BASE_TICKER_PRICES`. -/
def BASE_TICKER_PRICES : Ticker → ℚ
  | .DDR5 => 38067 / 1000
  | .DDR4 => 78409 / 1000

/-- `Object.keys(BASE_TICKER_PRICES)` in source declaration order. -/
def tickerList : List Ticker := [Ticker.DDR5, Ticker.DDR4]

/-- Lookup `BASE_TICKER_PRICES[ticker]` for an untrusted ticker string. -/
def tickerOfString (s : String) : Option Ticker :=
  if s = "DDR5" then some Ticker.DDR5
  else if s = "DDR4" then some Ticker.DDR4
  else none

inductive MarketId
  | m1
  | m2
  | m3
  | m4
deriving DecidableEq, Repr

instance : Fintype MarketId :=
  ⟨⟨{MarketId.m1, MarketId.m2, MarketId.m3, MarketId.m4}, by decide⟩,
    fun m => by cases m <;> decide⟩

inductive Period
  | MONTHLY
  | DAILY
deriving DecidableEq, Repr

inductive Outcome
  | YES
  | NO
deriving DecidableEq, Repr

structure MarketDef where
  category : Ticker
  ticker : String
  period : Period
deriving DecidableEq, Repr

/-- `MARKET_DEFINITIONS`. -/
def MARKET_DEFINITIONS : MarketId → MarketDef
  | .m1 => ⟨Ticker.DDR5, "DDR5-AUG-F", Period.MONTHLY⟩
  | .m2 => ⟨Ticker.DDR5, "DDR5-DAILY", Period.DAILY⟩
  | .m3 => ⟨Ticker.DDR4, "DDR4-AUG-F", Period.MONTHLY⟩
  | .m4 => ⟨Ticker.DDR4, "DDR4-DAILY", Period.DAILY⟩

/-- `MARKET_IDS_BY_TICKER`. -/
def MARKET_IDS_BY_TICKER : Ticker → List MarketId
  | .DDR5 => [MarketId.m1, MarketId.m2]
  | .DDR4 => [MarketId.m3, MarketId.m4]

/-- `DEFAULT_MARKET_CHANCES`. -/
def DEFAULT_MARKET_CHANCES : MarketId → ℚ
  | .m1 => 64
  | .m2 => 42
  | .m3 => 78
  | .m4 => 52

/-- Lookup `MARKET_DEFINITIONS[marketId]` for an untrusted market-id string. -/
def marketOfString (s : String) : Option MarketId :=
  if s = "1" then some MarketId.m1
  else if s = "2" then some MarketId.m2
  else if s = "3" then some MarketId.m3
  else if s = "4" then some MarketId.m4
  else none

/-- The string key a `MarketId` is stored under. -/
def marketKey : MarketId → String
  | .m1 => "1"
  | .m2 => "2"
  | .m3 => "3"
  | .m4 => "4"

/-- The two DAILY market ids `["2", "4"]` reset at the slot-0 session. -/
def dailyMarketIds : List MarketId := [MarketId.m2, MarketId.m4]

/-- The string key a `Ticker` is stored under. -/
def tickerKeyStr : Ticker → String
  | .DDR5 => "DDR5"
  | .DDR4 => "DDR4"

/-- The string form of a `Period`. -/
def periodKeyStr : Period → String
  | .MONTHLY => "MONTHLY"
  | .DAILY => "DAILY"

/-! ## Price ledger -/

structure PriceEntry where
  price : ℚ
  timestamp : String
  source : String
deriving DecidableEq, Repr

structure PricesData where
  currentPrices : Ticker → ℚ
  priceHistory : Ticker → List PriceEntry

/-! ## Chance ledger -/

structure ChancesData where
  currentChances : MarketId → ℚ
  chanceHistory : MarketId → List ℚ

/-- `updateChancesForTicker(ticker, priceDelta)`.  The `Math.random()` draws are
passed explicitly: `coin` is the result of the tie-break `Math.random() < 0.5`
(true picks direction `-1`), and `mag m` is the draw `2 + Math.random() * 4`
for market `m`. -/
def updateChancesForTicker (coin : Bool) (mag : MarketId → ℚ) (ticker : Ticker)
    (priceDelta : ℚ) (cd : ChancesData) : ChancesData :=
  let direction : ℚ :=
    if priceDelta > 0 then 1 else if priceDelta < 0 then -1 else if coin then -1 else 1
  (MARKET_IDS_BY_TICKER ticker).foldl
    (fun cd m =>
      let current := jsOrQ (cd.currentChances m) 50
      let next := clamp (current + direction * mag m) 1 99
      let rounded := toFixed 2 next
      { currentChances := fun x => if x = m then rounded else cd.currentChances x
        chanceHistory := fun x =>
          if x = m then sliceLast 160 (cd.chanceHistory m ++ [rounded])
          else cd.chanceHistory x })
    cd

/-- `getCurrentContractPrice(marketId, outcome)` (outcome already validated). -/
def getCurrentContractPrice (cd : ChancesData) (marketId : MarketId) (outcome : Outcome) : ℚ :=
  let chance := jsOrQ (cd.currentChances marketId) 50
  let probability := if outcome = Outcome.YES then chance / 100 else (100 - chance) / 100
  clamp probability (1 / 100) (99 / 100)

/-- `addPriceEntry(ticker, incomingPrice, source, timestampOverride)` for a known
ticker.  The chance-ledger randomness is passed through as in
`updateChancesForTicker`. -/
def addPriceEntry (coin : Bool) (mag : MarketId → ℚ) (ticker : Ticker) (incomingPrice : ℚ)
    (source timestamp : String) (pd : PricesData) (cd : ChancesData) :
    PriceEntry × PricesData × ChancesData :=
  let base := BASE_TICKER_PRICES ticker
  let prev := jsOrQ (pd.currentPrices ticker) base
  let stepBounded := clamp incomingPrice (prev * (95 / 100)) (prev * (105 / 100))
  let baseBounded := clamp stepBounded (base * (95 / 100)) (base * (105 / 100))
  let price := toFixed 3 baseBounded
  let entry : PriceEntry := ⟨price, timestamp, source⟩
  let pd1 : PricesData :=
    { currentPrices := fun t => if t = ticker then price else pd.currentPrices t
      priceHistory := fun t =>
        if t = ticker then sliceLast 100 (pd.priceHistory ticker ++ [entry])
        else pd.priceHistory t }
  (entry, pd1, updateChancesForTicker coin mag ticker (price - prev) cd)

/-- `addPriceEntry` at the untrusted string boundary: returns `null` and leaves
both ledgers untouched when the ticker is unknown. -/
def addPriceEntryStr (coin : Bool) (mag : MarketId → ℚ) (ticker : String) (incomingPrice : ℚ)
    (source timestamp : String) (pd : PricesData) (cd : ChancesData) :
    Option PriceEntry × PricesData × ChancesData :=
  match tickerOfString ticker with
  | none => (none, pd, cd)
  | some t =>
    let r := addPriceEntry coin mag t incomingPrice source timestamp pd cd
    (some r.1, r.2.1, r.2.2)

/-- The loop body of `generateSeedHistory`: `shocks i` is the draw
`Math.random() * 0.08 - 0.04` of iteration `i`. -/
def seedEntries (shocks : ℕ → ℚ) (base : ℚ) (src : String) : ℕ → ℕ → ℚ → List PriceEntry
  | _, 0, _ => []
  | i, n + 1, current =>
    let pct := clamp (shocks i + ((base - current) / base) * (25 / 100)) (-(5 / 100)) (5 / 100)
    let next := clamp (current * (1 + pct)) (base * (95 / 100)) (base * (105 / 100))
    ⟨toFixed 3 next, "", src⟩ :: seedEntries shocks base src (i + 1) n next

/-- `generateSeedHistory(base, ticker)` (timestamps abstracted to `""`). -/
def generateSeedHistory (shocks : ℕ → ℚ) (base : ℚ) (ticker : String) : List PriceEntry :=
  seedEntries shocks base ("seed-" ++ ticker) 0 50 base

/-- Raw JSON form of a price-history entry: `price` is `none` when
`Number(entry?.price)` is not finite. -/
structure RawPriceEntry where
  price : Option ℚ
  timestamp : Option String
  source : Option String

/-- Raw JSON form of the prices snapshot document. -/
structure RawPricesData where
  priceHistory : Ticker → Option (List RawPriceEntry)

/-- The entry-cleaning loop of `sanitizePricesData` for one ticker. -/
def cleanPriceEntries (base : ℚ) : List RawPriceEntry → ℚ → List PriceEntry
  | [], _ => []
  | e :: rest, prev =>
    match e.price with
    | none => cleanPriceEntries base rest prev
    | some rawPrice =>
      let stepBounded := clamp rawPrice (prev * (95 / 100)) (prev * (105 / 100))
      let baseBounded := clamp stepBounded (base * (95 / 100)) (base * (105 / 100))
      let normalized := toFixed 3 baseBounded
      ⟨normalized, jsOrStr e.timestamp "", jsOrStr e.source "normalized"⟩ ::
        cleanPriceEntries base rest normalized

/-- Per-ticker body of `sanitizePricesData`: slice the raw history to the last
100 entries, re-validate each against the double clamp, and regenerate from the
seeded walk when fewer than 2 entries survive. -/
def sanitizeTickerHistory (shocks : ℕ → ℚ) (t : Ticker) (raw : Option (List RawPriceEntry)) :
    List PriceEntry :=
  let base := BASE_TICKER_PRICES t
  let sourceEntries := match raw with
    | some l => sliceLast 100 l
    | none => []
  let cleaned := cleanPriceEntries base sourceEntries base
  if cleaned.length < 2 then generateSeedHistory shocks base (tickerName t) else cleaned
where
  tickerName : Ticker → String
    | .DDR5 => "ddr5"
    | .DDR4 => "ddr4"

/-- `sanitizePricesData(raw)` (statistics, being derived data, are omitted). -/
def sanitizePricesData (shocks : Ticker → ℕ → ℚ) (raw : Option RawPricesData) : PricesData :=
  let hist : Ticker → List PriceEntry := fun t =>
    sanitizeTickerHistory (shocks t) t (match raw with
      | none => none
      | some r => r.priceHistory t)
  { currentPrices := fun t => ((hist t).getLastD ⟨0, "", ""⟩).price
    priceHistory := hist }

/-- The loop of `generateChanceSeedHistory`: `deltas i` is the draw
`(Math.random() - 0.5) * 4` of iteration `i`. -/
def chanceSeedEntries (deltas : ℕ → ℚ) : ℕ → ℕ → ℚ → List ℚ
  | _, 0, _ => []
  | i, n + 1, current =>
    let next := clamp (current + deltas i) 1 99
    toFixed 2 next :: chanceSeedEntries deltas (i + 1) n next

/-- `generateChanceSeedHistory(baseChance)`: 60 clamped random points with the
last entry overwritten by the base chance. -/
def generateChanceSeedHistory (deltas : ℕ → ℚ) (baseChance : ℚ) : List ℚ :=
  let entries := chanceSeedEntries deltas 0 60 baseChance
  entries.dropLast ++ [baseChance]

/-- `buildDefaultChancesData()`. -/
def buildDefaultChancesData (deltas : MarketId → ℕ → ℚ) : ChancesData :=
  { currentChances := DEFAULT_MARKET_CHANCES
    chanceHistory := fun m => generateChanceSeedHistory (deltas m) (DEFAULT_MARKET_CHANCES m) }

/-- Raw JSON form of the chances snapshot document. -/
structure RawChancesData where
  currentChances : MarketId → Option ℚ
  chanceHistory : MarketId → Option (List (Option ℚ))

/-- `sanitizeChancesData(raw)`. -/
def sanitizeChancesData (deltas : MarketId → ℕ → ℚ) (raw : Option RawChancesData) :
    ChancesData :=
  match raw with
  | none => buildDefaultChancesData deltas
  | some r =>
    let current : MarketId → ℚ := fun m =>
      clamp (jsNumOr (r.currentChances m) (DEFAULT_MARKET_CHANCES m)) 1 99
    let history : MarketId → List ℚ := fun m =>
      let history0 := match r.chanceHistory m with
        | some l => sliceLast 160 (l.map fun n => clamp (jsNumOr n (current m)) 1 99)
        | none => generateChanceSeedHistory (deltas m) (current m)
      let history1 := if history0.length = 0 then history0 ++ [current m] else history0
      history1.dropLast ++ [current m]
    { currentChances := current, chanceHistory := history }

/-! ## Account store -/

inductive SynOrderType
  | BUY
  | SELL
deriving DecidableEq, Repr

inductive PredOrderType
  | BUY
  | SELL
  | SETTLEMENT
deriving DecidableEq, Repr

structure SynPosition where
  id : ℚ
  ticker : Ticker
  units : ℚ
  avgEntryPrice : ℚ
  investedAmount : ℚ
  createdAt : String
  updatedAt : String
deriving DecidableEq, Repr

structure SynOrder where
  id : ℚ
  type : SynOrderType
  ticker : Ticker
  units : ℚ
  price : ℚ
  amount : ℚ
  realizedPnl : ℚ
  createdAt : String
deriving DecidableEq, Repr

structure SyntheticState where
  nextPositionId : ℚ
  nextOrderId : ℚ
  openPositions : List SynPosition
  orderHistory : List SynOrder
deriving DecidableEq, Repr

structure PredPosition where
  id : ℚ
  marketId : MarketId
  ticker : String
  category : Ticker
  period : Period
  outcome : Outcome
  contracts : ℚ
  avgEntryPrice : ℚ
  investedAmount : ℚ
  targetPrice : ℚ
  openedSession : ℚ
  createdAt : String
  updatedAt : String
deriving DecidableEq, Repr

structure PredOrder where
  id : ℚ
  type : PredOrderType
  marketId : String
  ticker : String
  category : String
  period : String
  outcome : Outcome
  contracts : ℚ
  price : ℚ
  amount : ℚ
  realizedPnl : ℚ
  result : Option String
  session : ℚ
  note : Option String
  createdAt : String
deriving DecidableEq, Repr

structure PredictionState where
  realizedPnL : ℚ
  nextPositionId : ℚ
  nextOrderId : ℚ
  openPositions : List PredPosition
  orderHistory : List PredOrder
deriving DecidableEq, Repr

structure Account where
  username : String
  cashBalance : ℚ
  portfolioPnL : ℚ
  synthetic : SyntheticState
  prediction : PredictionState
  createdAt : String
  updatedAt : String
deriving DecidableEq, Repr

/-- `buildDefaultSyntheticState()`. -/
def buildDefaultSyntheticState : SyntheticState :=
  { nextPositionId := 1, nextOrderId := 1, openPositions := [], orderHistory := [] }

/-- `buildDefaultPredictionState()`. -/
def buildDefaultPredictionState : PredictionState :=
  { realizedPnL := 0, nextPositionId := 1, nextOrderId := 1
    openPositions := [], orderHistory := [] }

/-- `buildDefaultGuestAccount()` (timestamps abstracted to `""`). -/
def buildDefaultGuestAccount : Account :=
  { username := "DEMO", cashBalance := 1000, portfolioPnL := 0
    synthetic := buildDefaultSyntheticState
    prediction := buildDefaultPredictionState
    createdAt := "", updatedAt := "" }

/-- `getSyntheticQuote(ticker).ask` (`ask`, `bid` and `mark` coincide). -/
def getSyntheticQuote (prices : Ticker → ℚ) (t : Ticker) : ℚ :=
  jsOrQ (prices t) (jsOrQ (BASE_TICKER_PRICES t) 0)

/-- `recalculatePortfolioPnL(account)`: rebuild the cached unrealized P&L from
the open books at live prices and chances. -/
def recalculatePortfolioPnL (prices : Ticker → ℚ) (cd : ChancesData) (a : Account) : Account :=
  let predictionUnrealized := a.prediction.openPositions.foldl
    (fun sum p =>
      let currentPrice := getCurrentContractPrice cd p.marketId p.outcome
      sum + (p.contracts * currentPrice - p.investedAmount)) 0
  let syntheticUnrealized := a.synthetic.openPositions.foldl
    (fun sum p =>
      let mark := getSyntheticQuote prices p.ticker
      sum + (p.units * mark - p.investedAmount)) 0
  { a with portfolioPnL := toFixed 2 (predictionUnrealized + syntheticUnrealized) }

/-! Raw JSON forms for the account sanitizers. -/

structure RawSynPosition where
  id : Option ℚ
  ticker : Option String
  units : Option ℚ
  avgEntryPrice : Option ℚ
  investedAmount : Option ℚ
  createdAt : Option String
  updatedAt : Option String

structure RawSynOrder where
  id : Option ℚ
  type : Option String
  ticker : Option String
  units : Option ℚ
  price : Option ℚ
  amount : Option ℚ
  realizedPnl : Option ℚ
  createdAt : Option String

structure RawSyntheticState where
  nextPositionId : Option ℚ
  nextOrderId : Option ℚ
  openPositions : Option (List RawSynPosition)
  orderHistory : Option (List RawSynOrder)

structure RawPredPosition where
  id : Option ℚ
  marketId : Option String
  outcome : Option String
  contracts : Option ℚ
  avgEntryPrice : Option ℚ
  investedAmount : Option ℚ
  targetPrice : Option ℚ
  openedSession : Option ℚ
  createdAt : Option String
  updatedAt : Option String

structure RawPredOrder where
  id : Option ℚ
  type : Option String
  marketId : Option String
  ticker : Option String
  category : Option String
  period : Option String
  outcome : Option String
  contracts : Option ℚ
  price : Option ℚ
  amount : Option ℚ
  realizedPnl : Option ℚ
  result : Option String
  session : Option ℚ
  note : Option String
  createdAt : Option String

structure RawPredictionState where
  realizedPnL : Option ℚ
  nextPositionId : Option ℚ
  nextOrderId : Option ℚ
  openPositions : Option (List RawPredPosition)
  orderHistory : Option (List RawPredOrder)

structure RawAccount where
  username : Option String
  cashBalance : Option ℚ
  portfolioPnL : Option ℚ
  synthetic : Option RawSyntheticState
  prediction : Option RawPredictionState
  createdAt : Option String
  updatedAt : Option String

/-- The position mapper inside `sanitizeSyntheticState` (`null` = dropped). -/
def sanitizeSynPosition (p : RawSynPosition) : Option SynPosition :=
  match tickerOfString (jsOrStr p.ticker "") with
  | none => none
  | some t =>
    match p.units, p.avgEntryPrice, p.investedAmount with
    | some units, some avgEntryPrice, some investedAmount =>
      if units ≤ 0 ∨ avgEntryPrice ≤ 0 ∨ investedAmount ≤ 0 then none
      else some
        { id := jsNumOr p.id 0, ticker := t
          units := toFixed 6 units
          avgEntryPrice := toFixed 4 avgEntryPrice
          investedAmount := toFixed 4 investedAmount
          createdAt := jsOrStr p.createdAt "", updatedAt := jsOrStr p.updatedAt "" }
    | _, _, _ => none

/-- The order mapper inside `sanitizeSyntheticState`. -/
def sanitizeSynOrder (o : RawSynOrder) : Option SynOrder :=
  match tickerOfString (jsOrStr o.ticker "") with
  | none => none
  | some t =>
    some
      { id := jsNumOr o.id 0
        type := if o.type = some "SELL" then SynOrderType.SELL else SynOrderType.BUY
        ticker := t
        units := toFixed 6 (jsNumOr o.units 0)
        price := toFixed 4 (jsNumOr o.price 0)
        amount := toFixed 4 (jsNumOr o.amount 0)
        realizedPnl := toFixed 4 (jsNumOr o.realizedPnl 0)
        createdAt := jsOrStr o.createdAt "" }

/-- `sanitizeSyntheticState(raw)`. -/
def sanitizeSyntheticState (raw : Option RawSyntheticState) : SyntheticState :=
  match raw with
  | none => buildDefaultSyntheticState
  | some r =>
    let openPositions := match r.openPositions with
      | some l => l.filterMap sanitizeSynPosition
      | none => []
    let orderHistory := match r.orderHistory with
      | some l => l.filterMap sanitizeSynOrder
      | none => []
    let maxPositionId := openPositions.foldl (fun m p => max m (jsOrQ p.id 0)) 0
    let maxOrderId := orderHistory.foldl (fun m o => max m (jsOrQ o.id 0)) 0
    { nextPositionId := max (jsNumOr r.nextPositionId 1) (maxPositionId + 1)
      nextOrderId := max (jsNumOr r.nextOrderId 1) (maxOrderId + 1)
      openPositions := openPositions
      orderHistory := sliceLast 500 orderHistory }

/-- The position mapper inside `sanitizePredictionState`. -/
def sanitizePredPosition (ptb : Ticker → ℚ) (p : RawPredPosition) : Option PredPosition :=
  match marketOfString (jsOrStr p.marketId "") with
  | none => none
  | some m =>
    let market := MARKET_DEFINITIONS m
    match p.contracts, p.avgEntryPrice, p.investedAmount with
    | some contracts, some avgEntryPrice, some investedAmount =>
      if contracts ≤ 0 ∨ avgEntryPrice ≤ 0 ∨ investedAmount ≤ 0 then none
      else some
        { id := jsNumOr p.id 0, marketId := m
          ticker := market.ticker, category := market.category, period := market.period
          outcome := if p.outcome = some "NO" then Outcome.NO else Outcome.YES
          contracts := toFixed 4 contracts
          avgEntryPrice := toFixed 4 avgEntryPrice
          investedAmount := toFixed 4 investedAmount
          targetPrice := match p.targetPrice with
            | some tp => toFixed 3 tp
            | none => toFixed 3 (jsOrQ (ptb market.category) 0)
          openedSession := match p.openedSession with
            | some s => ((max 0 ⌊s⌋ : ℤ) : ℚ)
            | none => 0
          createdAt := jsOrStr p.createdAt "", updatedAt := jsOrStr p.updatedAt "" }
    | _, _, _ => none

/-- The order mapper inside `sanitizePredictionState`. -/
def sanitizePredOrder (o : RawPredOrder) : Option PredOrder :=
  let marketId := jsOrStr o.marketId ""
  let market := marketOfString marketId
  if market = none ∧ o.type ≠ some "SETTLEMENT" then none
  else
    match o.type with
    | some ty =>
      if ty = "BUY" ∨ ty = "SELL" ∨ ty = "SETTLEMENT" then
        some
          { id := jsNumOr o.id 0
            type := if ty = "BUY" then PredOrderType.BUY
              else if ty = "SELL" then PredOrderType.SELL else PredOrderType.SETTLEMENT
            marketId := jsOrStr (some marketId) "N/A"
            ticker := match market with
              | some m => (MARKET_DEFINITIONS m).ticker
              | none => jsOrStr o.ticker "N/A"
            category := match market with
              | some m => tickerKeyStr (MARKET_DEFINITIONS m).category
              | none => jsOrStr o.category "N/A"
            period := match market with
              | some m => periodKeyStr (MARKET_DEFINITIONS m).period
              | none => jsOrStr o.period "N/A"
            outcome := if o.outcome = some "NO" then Outcome.NO else Outcome.YES
            contracts := toFixed 4 (jsNumOr o.contracts 0)
            price := toFixed 4 (jsNumOr o.price 0)
            amount := toFixed 4 (jsNumOr o.amount 0)
            realizedPnl := toFixed 4 (jsNumOr o.realizedPnl 0)
            result := if o.result = some "WIN" ∨ o.result = some "LOSS" then o.result else none
            session := jsNumOr o.session 0
            note := o.note
            createdAt := jsOrStr o.createdAt "" }
      else none
    | none => none

/-- `sanitizePredictionState(raw)` (needs the session's `priceToBeat` for the
target-price fallback). -/
def sanitizePredictionState (ptb : Ticker → ℚ) (raw : Option RawPredictionState) :
    PredictionState :=
  match raw with
  | none => buildDefaultPredictionState
  | some r =>
    let openPositions := match r.openPositions with
      | some l => l.filterMap (sanitizePredPosition ptb)
      | none => []
    let orderHistory := match r.orderHistory with
      | some l => l.filterMap sanitizePredOrder
      | none => []
    let maxPositionId := openPositions.foldl (fun m p => max m (jsOrQ p.id 0)) 0
    let maxOrderId := orderHistory.foldl (fun m o => max m (jsOrQ o.id 0)) 0
    { realizedPnL := toFixed 4 (jsNumOr r.realizedPnL 0)
      nextPositionId := max (jsNumOr r.nextPositionId 1) (maxPositionId + 1)
      nextOrderId := max (jsNumOr r.nextOrderId 1) (maxOrderId + 1)
      openPositions := openPositions
      orderHistory := sliceLast 500 orderHistory }

/-- `ensureAccountShape(account)`: re-sanitize a loaded account record and
rebuild its cached portfolio P&L from live prices and chances. -/
def ensureAccountShape (prices : Ticker → ℚ) (cd : ChancesData) (ptb : Ticker → ℚ)
    (account : Option RawAccount) : Account :=
  match account with
  | none => buildDefaultGuestAccount
  | some a =>
    let nextCash := max 0 (toFiniteNumber a.cashBalance 1000)
    let nextPortfolio := toFiniteNumber a.portfolioPnL 0
    let normalized : Account :=
      { username := jsOrStr a.username "DEMO"
        cashBalance := toFixed 2 nextCash
        portfolioPnL := toFixed 2 nextPortfolio
        synthetic := sanitizeSyntheticState a.synthetic
        prediction := sanitizePredictionState ptb a.prediction
        createdAt := jsOrStr a.createdAt "", updatedAt := jsOrStr a.updatedAt "" }
    recalculatePortfolioPnL prices cd normalized

/-! ## Settlement sweeper -/

/-- Fields of a prediction order before `appendOrderHistory` assigns its id. -/
structure PredOrderDraft where
  type : PredOrderType
  marketId : String
  ticker : String
  category : String
  period : String
  outcome : Outcome
  contracts : ℚ
  price : ℚ
  amount : ℚ
  realizedPnl : ℚ
  result : Option String
  session : ℚ
  note : Option String
deriving DecidableEq, Repr

/-- `appendOrderHistory(account, order)`: assign the next order id, unshift into
the prediction order history, keep the most recent 500. -/
def appendOrderHistory (a : Account) (draft : PredOrderDraft) : Account :=
  let entry : PredOrder :=
    { id := a.prediction.nextOrderId
      type := draft.type, marketId := draft.marketId, ticker := draft.ticker
      category := draft.category, period := draft.period, outcome := draft.outcome
      contracts := draft.contracts, price := draft.price, amount := draft.amount
      realizedPnl := draft.realizedPnl, result := draft.result
      session := draft.session, note := draft.note, createdAt := "" }
  { a with prediction :=
    { a.prediction with
      nextOrderId := a.prediction.nextOrderId + 1
      orderHistory := (entry :: a.prediction.orderHistory).take 500 } }

/-- Accumulator of the per-position loop in `settleDuePredictionPositions`. -/
structure SettleAcc where
  stillOpen : List PredPosition
  cashBalance : ℚ
  realizedPnL : ℚ
  nextOrderId : ℚ
  orderHistory : List PredOrder
deriving DecidableEq, Repr

/-- One iteration of the position loop of `settleDuePredictionPositions`. -/
def settlePosStep (skip : ℚ) (prices : Ticker → ℚ) (acc : SettleAcc) (p : PredPosition) :
    SettleAcc :=
  if p.period = Period.MONTHLY then { acc with stillOpen := acc.stillOpen ++ [p] }
  else
    let sessionsHeld := skip - p.openedSession
    if sessionsHeld < 3 then { acc with stillOpen := acc.stillOpen ++ [p] }
    else
      let finalSpot := jsOrQ (prices p.category) 0
      let won : Outcome := if finalSpot > p.targetPrice then Outcome.YES else Outcome.NO
      let isWinningPosition := p.outcome = won
      let payout := if isWinningPosition then p.contracts else 0
      let realizedPnl := payout - p.investedAmount
      let order : PredOrder :=
        { id := acc.nextOrderId
          type := PredOrderType.SETTLEMENT
          marketId := marketKey p.marketId, ticker := p.ticker
          category := tickerKeyStr p.category, period := periodKeyStr p.period
          outcome := p.outcome
          contracts := toFixed 4 p.contracts
          price := if isWinningPosition then 1 else 0
          amount := toFixed 4 payout
          realizedPnl := toFixed 4 realizedPnl
          result := some (if isWinningPosition then "WIN" else "LOSS")
          session := skip
          note := some "Settled", createdAt := "" }
      { stillOpen := acc.stillOpen
        cashBalance := toFixed 2 (acc.cashBalance + payout)
        realizedPnL := toFixed 4 (jsOrQ acc.realizedPnL 0 + realizedPnl)
        nextOrderId := acc.nextOrderId + 1
        orderHistory := (order :: acc.orderHistory).take 500 }

/-- The per-account body of `settleDuePredictionPositions`, followed by the
`recalculatePortfolioPnL` call it makes. -/
def settleAccount (skip : ℚ) (prices : Ticker → ℚ) (cd : ChancesData) (a : Account) : Account :=
  let init : SettleAcc :=
    { stillOpen := [], cashBalance := a.cashBalance, realizedPnL := a.prediction.realizedPnL
      nextOrderId := a.prediction.nextOrderId, orderHistory := a.prediction.orderHistory }
  let r := a.prediction.openPositions.foldl (settlePosStep skip prices) init
  let a1 : Account :=
    { a with
      cashBalance := r.cashBalance
      prediction :=
        { a.prediction with
          realizedPnL := r.realizedPnL
          nextOrderId := r.nextOrderId
          openPositions := r.stillOpen
          orderHistory := r.orderHistory } }
  recalculatePortfolioPnL prices cd a1

/-- `settleDuePredictionPositions()` over the whole account store. -/
def settleDuePredictionPositions (skip : ℚ) (prices : Ticker → ℚ) (cd : ChancesData)
    (accounts : List (String × Account)) : List (String × Account) :=
  accounts.map fun ka => (ka.1, settleAccount skip prices cd ka.2)

/-! ## Trade executor -/

structure TradeResult where
  ok : Bool
  error : Option String
  account : Account
deriving DecidableEq, Repr

/-- Accumulator of the lot-consuming loop of the synthetic SELL path. -/
structure SynSellAcc where
  remainingUnits : ℚ
  removedCost : ℚ
  soldUnits : ℚ
  nextOpen : List SynPosition
deriving DecidableEq, Repr

/-- The summed open units matching a synthetic sell key (lines 2766-2768). -/
def synOwnedUnits (t : Ticker) (l : List SynPosition) : ℚ :=
  (l.filter fun p => p.ticker = t).foldl (fun s p => s + p.units) 0

/-- The summed open contracts matching a prediction sell key (lines 2982-2987). -/
def predOwnedContracts (m : MarketId) (oc : Outcome) (l : List PredPosition) : ℚ :=
  (l.filter fun p => p.marketId = m ∧ p.outcome = oc).foldl (fun s p => s + p.contracts) 0

/-- One iteration of the synthetic SELL lot walk (lines 2780-2803). -/
def synSellStep (ticker : Ticker) (acc : SynSellAcc) (p : SynPosition) : SynSellAcc :=
  if p.ticker ≠ ticker ∨ acc.remainingUnits ≤ 0 then
    { acc with nextOpen := acc.nextOpen ++ [p] }
  else
    let used := min acc.remainingUnits p.units
    let share := used / p.units
    let costPortion := p.investedAmount * share
    let leftUnits := p.units - used
    let leftInvested := p.investedAmount - costPortion
    { remainingUnits := acc.remainingUnits - used
      removedCost := acc.removedCost + costPortion
      soldUnits := acc.soldUnits + used
      nextOpen :=
        if leftUnits > 1 / 10000 then
          acc.nextOpen ++
            [{ p with
                units := toFixed 6 leftUnits
                investedAmount := toFixed 4 leftInvested
                avgEntryPrice := toFixed 4 (leftInvested / leftUnits)
                updatedAt := "" }]
        else acc.nextOpen }

/-- `executeSyntheticTrade({account, side, ticker, amount})`.  `amount` is
`none` when `Number(amount)` is not finite; `side` is the raw string the
caller passed. -/
def executeSyntheticTrade (prices : Ticker → ℚ) (cd : ChancesData) (account : Account)
    (side : String) (ticker : String) (amount : Option ℚ) : TradeResult :=
  match tickerOfString ticker with
  | none => ⟨false, some "Invalid ticker", account⟩
  | some t =>
    match amount with
    | none => ⟨false, some "Invalid amount", account⟩
    | some usdAmount =>
      if usdAmount ≤ 0 then ⟨false, some "Invalid amount", account⟩
      else
        let quote := getSyntheticQuote prices t
        let finish : SyntheticState → ℚ → TradeResult := fun syn cash =>
          let syn1 := { syn with orderHistory := syn.orderHistory.take 500 }
          let a1 := { account with cashBalance := cash, synthetic := syn1, updatedAt := "" }
          ⟨true, none, recalculatePortfolioPnL prices cd a1⟩
        if side = "BUY" then
          if usdAmount > account.cashBalance then
            ⟨false, some "Insufficient cash balance", account⟩
          else
            let units := usdAmount / quote
            let syn := account.synthetic
            let newPos : SynPosition :=
              { id := syn.nextPositionId, ticker := t
                units := toFixed 6 units
                avgEntryPrice := toFixed 4 quote
                investedAmount := toFixed 4 usdAmount
                createdAt := "", updatedAt := "" }
            let newOrder : SynOrder :=
              { id := syn.nextOrderId, type := SynOrderType.BUY, ticker := t
                units := toFixed 6 units
                price := toFixed 4 quote
                amount := toFixed 4 usdAmount
                realizedPnl := 0, createdAt := "" }
            finish
              { syn with
                nextPositionId := syn.nextPositionId + 1
                nextOrderId := syn.nextOrderId + 1
                openPositions := syn.openPositions ++ [newPos]
                orderHistory := newOrder :: syn.orderHistory }
              (toFixed 2 (max 0 (account.cashBalance - usdAmount)))
        else if side = "SELL" then
          let syn := account.synthetic
          let totalOwnedUnits := synOwnedUnits t syn.openPositions
          let requestedUnits := usdAmount / quote
          if requestedUnits > totalOwnedUnits + 1 / 10000 then
            ⟨false, some "Insufficient units to sell", account⟩
          else
            let init : SynSellAcc :=
              { remainingUnits := min requestedUnits totalOwnedUnits
                removedCost := 0, soldUnits := 0, nextOpen := [] }
            let r := syn.openPositions.foldl (synSellStep t) init
            if r.soldUnits ≤ 0 ∨ r.remainingUnits > 1 / 10000 then
              ⟨false, some "Insufficient units to sell", account⟩
            else
              let proceeds := r.soldUnits * quote
              let realizedPnl := proceeds - r.removedCost
              let newOrder : SynOrder :=
                { id := syn.nextOrderId, type := SynOrderType.SELL, ticker := t
                  units := toFixed 6 r.soldUnits
                  price := toFixed 4 quote
                  amount := toFixed 4 proceeds
                  realizedPnl := toFixed 4 realizedPnl, createdAt := "" }
              finish
                { syn with
                  nextOrderId := syn.nextOrderId + 1
                  openPositions := r.nextOpen
                  orderHistory := newOrder :: syn.orderHistory }
                (toFixed 2 (max 0 (account.cashBalance + proceeds)))
        else ⟨false, some "Invalid side", account⟩

/-- Accumulator of the lot-consuming loop of the prediction SELL path. -/
structure PredSellAcc where
  remaining : ℚ
  removedCost : ℚ
  soldContracts : ℚ
  nextOpen : List PredPosition
deriving DecidableEq, Repr

/-- One iteration of the prediction SELL lot walk (lines 2999-3028). -/
def predSellStep (marketId : MarketId) (outcome : Outcome) (acc : PredSellAcc)
    (p : PredPosition) : PredSellAcc :=
  if acc.remaining ≤ 0 ∨ p.marketId ≠ marketId ∨ p.outcome ≠ outcome then
    { acc with nextOpen := acc.nextOpen ++ [p] }
  else
    let used := min acc.remaining p.contracts
    let share := used / p.contracts
    let costPortion := p.investedAmount * share
    let leftContracts := p.contracts - used
    let leftInvested := p.investedAmount - costPortion
    { remaining := acc.remaining - used
      removedCost := acc.removedCost + costPortion
      soldContracts := acc.soldContracts + used
      nextOpen :=
        if leftContracts > 1 / 100 then
          acc.nextOpen ++
            [{ p with
                contracts := toFixed 4 leftContracts
                investedAmount := toFixed 4 leftInvested
                avgEntryPrice := toFixed 4 (leftInvested / leftContracts)
                updatedAt := "" }]
        else acc.nextOpen }

/-- `executePredictionTrade({account, side, marketId, outcome, amount, contracts})`.
`side`, `marketId` and `outcome` are the raw strings the caller passed;
`amount`/`contracts` are `none` when their `Number(...)` coercion is not
finite. -/
def executePredictionTrade (prices : Ticker → ℚ) (cd : ChancesData) (ptb : Ticker → ℚ)
    (skip : ℚ) (account : Account) (side : String) (marketId : String) (outcome : String)
    (amount contracts : Option ℚ) : TradeResult :=
  match marketOfString marketId with
  | none => ⟨false, some "Invalid market id", account⟩
  | some m =>
    if outcome ≠ "YES" ∧ outcome ≠ "NO" then ⟨false, some "Invalid outcome", account⟩
    else
      let oc : Outcome := if outcome = "NO" then Outcome.NO else Outcome.YES
      let market := MARKET_DEFINITIONS m
      let price := getCurrentContractPrice cd m oc
      let finish : Account → TradeResult := fun a1 =>
        ⟨true, none, recalculatePortfolioPnL prices cd { a1 with updatedAt := "" }⟩
      if side = "BUY" then
        match amount with
        | none => ⟨false, some "Invalid buy amount", account⟩
        | some buyAmount =>
          if buyAmount ≤ 0 then ⟨false, some "Invalid buy amount", account⟩
          else if buyAmount > account.cashBalance then
            ⟨false, some "Insufficient cash balance", account⟩
          else
            let boughtContracts := buyAmount / price
            let pred := account.prediction
            let newPos : PredPosition :=
              { id := pred.nextPositionId, marketId := m
                ticker := market.ticker, category := market.category, period := market.period
                outcome := oc
                contracts := toFixed 4 boughtContracts
                avgEntryPrice := toFixed 4 price
                investedAmount := toFixed 4 buyAmount
                targetPrice :=
                  toFixed 3 (jsOrQ (ptb market.category) (jsOrQ (prices market.category) 0))
                openedSession := skip
                createdAt := "", updatedAt := "" }
            let a1 :=
              { account with
                cashBalance := toFixed 2 (max 0 (account.cashBalance - buyAmount))
                prediction :=
                  { pred with
                    nextPositionId := pred.nextPositionId + 1
                    openPositions := pred.openPositions ++ [newPos] } }
            finish (appendOrderHistory a1
              { type := PredOrderType.BUY
                marketId := marketKey m, ticker := market.ticker
                category := tickerKeyStr market.category, period := periodKeyStr market.period
                outcome := oc
                contracts := toFixed 4 boughtContracts
                price := toFixed 4 price
                amount := toFixed 4 buyAmount
                realizedPnl := 0, result := none, session := skip, note := none })
      else if side = "SELL" then
        match contracts with
        | none => ⟨false, some "Invalid contracts to sell", account⟩
        | some contractsToSell =>
          if contractsToSell ≤ 0 then ⟨false, some "Invalid contracts to sell", account⟩
          else
            let pred := account.prediction
            let matchingTotalContracts := predOwnedContracts m oc pred.openPositions
            if contractsToSell > matchingTotalContracts + 1 / 100 then
              ⟨false, some "Not enough contracts to sell", account⟩
            else
              let targetContracts := min contractsToSell matchingTotalContracts
              let init : PredSellAcc :=
                { remaining := targetContracts, removedCost := 0
                  soldContracts := 0, nextOpen := [] }
              let r := pred.openPositions.foldl (predSellStep m oc) init
              if r.soldContracts ≤ 0 ∨ r.remaining > 1 / 100 then
                ⟨false, some "Not enough contracts to sell", account⟩
              else
                let proceeds := r.soldContracts * price
                let realizedPnl := proceeds - r.removedCost
                let a1 :=
                  { account with
                    cashBalance := toFixed 2 (max 0 (account.cashBalance + proceeds))
                    prediction :=
                      { pred with
                        openPositions := r.nextOpen
                        realizedPnL := toFixed 4 (jsOrQ pred.realizedPnL 0 + realizedPnl) } }
                finish (appendOrderHistory a1
                  { type := PredOrderType.SELL
                    marketId := marketKey m, ticker := market.ticker
                    category := tickerKeyStr market.category, period := periodKeyStr market.period
                    outcome := oc
                    contracts := toFixed 4 r.soldContracts
                    price := toFixed 4 price
                    amount := toFixed 4 proceeds
                    realizedPnl := toFixed 4 realizedPnl
                    result := none, session := skip, note := none })
      else ⟨false, some "Invalid side", account⟩

/-! ## Session clock and engine state -/

structure SessionState where
  skipSessionCount : ℚ
  lastSessionSlotIndex : ℕ
  priceToBeat : Ticker → ℚ

structure EngineState where
  prices : PricesData
  chances : ChancesData
  session : SessionState
  accounts : List (String × Account)

/-- `getNextSessionPrice(ticker)`: `shock` is the draw `Math.random() * 0.1 - 0.05`. -/
def getNextSessionPrice (shock : ℚ) (t : Ticker) (pd : PricesData) : ℚ :=
  let current := jsOrQ (pd.currentPrices t) (BASE_TICKER_PRICES t)
  let base := jsOrQ (BASE_TICKER_PRICES t) current
  let meanReversion := ((base - current) / jsOrQ base 1) * (2 / 10)
  let pct := clamp (shock + meanReversion) (-(5 / 100)) (5 / 100)
  clamp (current * (1 + pct)) (base * (95 / 100)) (base * (105 / 100))

/-- The random draws consumed by one session step. -/
structure StepRand where
  shock : Ticker → ℚ
  coin : Ticker → Bool
  mag : Ticker → MarketId → ℚ

/-- The `tickers.forEach` price-tick loop of one `runSkipSessions` step. -/
def tickAllTickers (r : StepRand) (pd : PricesData) (cd : ChancesData) :
    PricesData × ChancesData :=
  tickerList.foldl
    (fun st t =>
      let next := getNextSessionPrice (r.shock t) t st.1
      let res := addPriceEntry (r.coin t) (r.mag t) t next "session-skip" "" st.1 st.2
      (res.2.1, res.2.2))
    (pd, cd)

/-- The daily chance reset performed at a slot-0 crossing: daily markets snap
to 50 with history `[50]`. -/
def resetDailyChances (cd : ChancesData) : ChancesData :=
  dailyMarketIds.foldl
    (fun cd m =>
      { currentChances := fun x => if x = m then 50 else cd.currentChances x
        chanceHistory := fun x => if x = m then [50] else cd.chanceHistory x })
    cd

/-- The else-branch history truncation: keep only the current daily cycle
points (`Math.min(3, slotIndex + 1)`). -/
def truncateDailyChances (slotIndex : ℕ) (cd : ChancesData) : ChancesData :=
  dailyMarketIds.foldl
    (fun cd m =>
      { currentChances := cd.currentChances
        chanceHistory := fun x =>
          if x = m then sliceLast (min 3 (slotIndex + 1)) (cd.chanceHistory m)
          else cd.chanceHistory x })
    cd

/-- One iteration of the `for` loop in `runSkipSessions`: advance the slot,
tick prices (and chances), bump the session counter, settle due positions,
then either resync `priceToBeat` and reset DAILY chances (post-increment slot
index 0) or truncate the daily chance history. -/
def sessionStep (r : StepRand) (st : EngineState) : EngineState :=
  let slotIndex := (st.session.lastSessionSlotIndex + 1) % 3
  let ticked := tickAllTickers r st.prices st.chances
  let skip := st.session.skipSessionCount + 1
  let accounts := settleDuePredictionPositions skip ticked.1.currentPrices ticked.2 st.accounts
  if slotIndex = 0 then
    { prices := ticked.1
      chances := resetDailyChances ticked.2
      session :=
        { skipSessionCount := skip, lastSessionSlotIndex := slotIndex
          priceToBeat := fun t => toFixed 3 (ticked.1.currentPrices t) }
      accounts := accounts }
  else
    { prices := ticked.1
      chances := truncateDailyChances slotIndex ticked.2
      session :=
        { skipSessionCount := skip, lastSessionSlotIndex := slotIndex
          priceToBeat := st.session.priceToBeat }
      accounts := accounts }

/-- Iterate `sessionStep`, feeding step `s` the draws `rands s`. -/
def stepN (rands : ℕ → StepRand) : ℕ → EngineState → EngineState
  | 0, st => st
  | n + 1, st => stepN (fun i => rands (i + 1)) n (sessionStep (rands 0) st)

/-- `runSkipSessions(sessionCount)`: clamp the request to `[1, 20]`, run that
many `for`-loop iterations (`⌈count⌉` iterations, since the JS loop guard is
`s < count` with possibly non-integer `count`), and return the clamped count. -/
def runSkipSessions (rands : ℕ → StepRand) (sessionCount : Option ℚ) (st : EngineState) :
    ℚ × EngineState :=
  let count := max 1 (min 20 (jsNumOr sessionCount 1))
  (count, stepN rands ⌈count⌉.toNat st)

/-! ## Guest identity and the HTTP route layer -/

/-- A character allowed by the guest-id format `[a-zA-Z0-9_-]`. -/
def isGuestChar (c : Char) : Bool :=
  (c ≥ 'a' ∧ c ≤ 'z') ∨ (c ≥ 'A' ∧ c ≤ 'Z') ∨ (c ≥ '0' ∧ c ≤ '9') ∨ c = '_' ∨ c = '-'

/-- `sanitizeGuestId(value)`: trim, then require `^[a-zA-Z0-9_-]{4,80}$`. -/
def sanitizeGuestId (value : Option String) : Option String :=
  match value with
  | none => none
  | some v =>
    let cleaned := jsTrim v
    if 4 ≤ cleaned.length ∧ cleaned.length ≤ 80 ∧ cleaned.toList.all isGuestChar then
      some cleaned
    else none

/-- `resolveGuestId(req)`: the sanitized `x-guest-id` header, else the shared
key `"guest-default"`. -/
def resolveGuestId (header : Option String) : String :=
  (sanitizeGuestId header).getD "guest-default"

/-- Turn an in-memory account back into its raw JSON form (the identity
embedding used when `ensureAccountShape` re-sanitizes an already-shaped
record). -/
def accountToRaw (a : Account) : RawAccount :=
  { username := some a.username
    cashBalance := some a.cashBalance
    portfolioPnL := some a.portfolioPnL
    synthetic := some
      { nextPositionId := some a.synthetic.nextPositionId
        nextOrderId := some a.synthetic.nextOrderId
        openPositions := some (a.synthetic.openPositions.map fun p =>
          { id := some p.id, ticker := some (tickerKeyStr p.ticker)
            units := some p.units, avgEntryPrice := some p.avgEntryPrice
            investedAmount := some p.investedAmount
            createdAt := some p.createdAt, updatedAt := some p.updatedAt })
        orderHistory := some (a.synthetic.orderHistory.map fun o =>
          { id := some o.id
            type := some (match o.type with | .BUY => "BUY" | .SELL => "SELL")
            ticker := some (tickerKeyStr o.ticker)
            units := some o.units, price := some o.price, amount := some o.amount
            realizedPnl := some o.realizedPnl, createdAt := some o.createdAt }) }
    prediction := some
      { realizedPnL := some a.prediction.realizedPnL
        nextPositionId := some a.prediction.nextPositionId
        nextOrderId := some a.prediction.nextOrderId
        openPositions := some (a.prediction.openPositions.map fun p =>
          { id := some p.id, marketId := some (marketKey p.marketId)
            outcome := some (match p.outcome with | .YES => "YES" | .NO => "NO")
            contracts := some p.contracts, avgEntryPrice := some p.avgEntryPrice
            investedAmount := some p.investedAmount, targetPrice := some p.targetPrice
            openedSession := some p.openedSession
            createdAt := some p.createdAt, updatedAt := some p.updatedAt })
        orderHistory := some (a.prediction.orderHistory.map fun o =>
          { id := some o.id
            type := some (match o.type with
              | .BUY => "BUY" | .SELL => "SELL" | .SETTLEMENT => "SETTLEMENT")
            marketId := some o.marketId, ticker := some o.ticker
            category := some o.category, period := some o.period
            outcome := some (match o.outcome with | .YES => "YES" | .NO => "NO")
            contracts := some o.contracts, price := some o.price, amount := some o.amount
            realizedPnl := some o.realizedPnl, result := o.result
            session := some o.session, note := o.note, createdAt := some o.createdAt }) }
    createdAt := some a.createdAt, updatedAt := some a.updatedAt }

/-- `getOrCreateGuestAccount(guestId)`: lazily create a sanitized default
account, then return the re-normalized record (storing it back). -/
def getOrCreateGuestAccount (prices : Ticker → ℚ) (cd : ChancesData) (ptb : Ticker → ℚ)
    (guestId : String) (accounts : List (String × Account)) :
    List (String × Account) × Account :=
  let store1 :=
    if (accounts.lookup guestId).isNone then
      accounts ++
        [(guestId, ensureAccountShape prices cd ptb (some (accountToRaw buildDefaultGuestAccount)))]
    else accounts
  let stored := ((store1.lookup guestId).getD buildDefaultGuestAccount)
  let normalized := ensureAccountShape prices cd ptb (some (accountToRaw stored))
  (store1.map fun ka => if ka.1 = guestId then (ka.1, normalized) else ka, normalized)

/-- `app.post("/api/synthetic/trade")`: resolve the guest, get-or-create the
account, coerce the side (`req.body?.side === "SELL" ? "SELL" : "BUY"`), run
the executor, and store the result on success. -/
def tradeSyntheticRoute (prices : Ticker → ℚ) (cd : ChancesData) (ptb : Ticker → ℚ)
    (header : Option String) (side ticker : Option String) (amount : Option ℚ)
    (accounts : List (String × Account)) :
    TradeResult × List (String × Account) :=
  let guestId := resolveGuestId header
  let got := getOrCreateGuestAccount prices cd ptb guestId accounts
  let coercedSide := if side = some "SELL" then "SELL" else "BUY"
  let result := executeSyntheticTrade prices cd got.2 coercedSide (jsOrStr ticker "") amount
  if result.ok then
    (result, got.1.map fun ka => if ka.1 = guestId then (ka.1, result.account) else ka)
  else (result, got.1)

/-- `app.post("/api/prediction/trade")`: same shape, also coercing the outcome
(`req.body?.outcome === "NO" ? "NO" : "YES"`). -/
def tradePredictionRoute (prices : Ticker → ℚ) (cd : ChancesData) (ptb : Ticker → ℚ)
    (skip : ℚ) (header : Option String) (side marketId outcome : Option String)
    (amount contracts : Option ℚ) (accounts : List (String × Account)) :
    TradeResult × List (String × Account) :=
  let guestId := resolveGuestId header
  let got := getOrCreateGuestAccount prices cd ptb guestId accounts
  let coercedSide := if side = some "SELL" then "SELL" else "BUY"
  let coercedOutcome := if outcome = some "NO" then "NO" else "YES"
  let result := executePredictionTrade prices cd ptb skip got.2 coercedSide
    (jsOrStr marketId "") coercedOutcome amount contracts
  if result.ok then
    (result, got.1.map fun ka => if ka.1 = guestId then (ka.1, result.account) else ka)
  else (result, got.1)

/-! ## Derived definitions used in the theorem statements -/

/-- A prediction position survives the settlement sweep iff it is MONTHLY or
has been held for fewer than 3 sessions. -/
def keepsPosition (skip : ℚ) (p : PredPosition) : Bool :=
  p.period == Period.MONTHLY || decide (skip - p.openedSession < 3)

/-- A due position wins settlement iff `(price > target)` coincides with
`(outcome = YES)`; an exact tie makes `price > target` false, so NO wins. -/
def settleWins (prices : Ticker → ℚ) (p : PredPosition) : Prop :=
  (prices p.category > p.targetPrice) ↔ (p.outcome = Outcome.YES)

instance (prices : Ticker → ℚ) (p : PredPosition) : Decidable (settleWins prices p) := by
  unfold settleWins
  infer_instance

/-- The settlement payout of a due position: the full contract count when the
position wins, else `0`. -/
def settlePayout (prices : Ticker → ℚ) (p : PredPosition) : ℚ :=
  if settleWins prices p then p.contracts else 0

/-- The SETTLEMENT order record booked for a due position. -/
def mkSettleOrder (skip : ℚ) (prices : Ticker → ℚ) (oid : ℚ) (p : PredPosition) : PredOrder :=
  { id := oid, type := PredOrderType.SETTLEMENT
    marketId := marketKey p.marketId, ticker := p.ticker
    category := tickerKeyStr p.category, period := periodKeyStr p.period
    outcome := p.outcome
    contracts := toFixed 4 p.contracts
    price := if settleWins prices p then 1 else 0
    amount := toFixed 4 (settlePayout prices p)
    realizedPnl := toFixed 4 (settlePayout prices p - p.investedAmount)
    result := some (if settleWins prices p then "WIN" else "LOSS")
    session := skip, note := some "Settled", createdAt := "" }

/-- Chance-ledger invariant: every chance is in `[1, 99]`, the last history
point equals the current chance, and the history is capped at 160 points. -/
def chanceInvariant (cd : ChancesData) : Prop :=
  ∀ m, 1 ≤ cd.currentChances m ∧ cd.currentChances m ≤ 99 ∧
    (cd.chanceHistory m).getLast? = some (cd.currentChances m) ∧
    (cd.chanceHistory m).length ≤ 160

/-- Exact base-price band: `0.95 × base ≤ p ≤ 1.05 × base`. -/
def priceBaseOK (base p : ℚ) : Prop := base * (95 / 100) ≤ p ∧ p ≤ base * (105 / 100)

/-- Step band up to the 3-decimal rounding slack `0.0015`. -/
def priceStepOK (prev cur : ℚ) : Prop :=
  prev * (95 / 100) - 3 / 2000 ≤ cur ∧ cur ≤ prev * (105 / 100) + 3 / 2000

/-- Price-ledger invariant: every stored entry is inside the exact base band,
adjacent entries respect the step band up to rounding slack, the history is
capped at 100 entries, and the current price is the last stored entry. -/
def priceHistoryInv (pd : PricesData) : Prop :=
  ∀ t, (∀ e ∈ pd.priceHistory t, priceBaseOK (BASE_TICKER_PRICES t) e.price) ∧
    List.Chain' (fun a b => priceStepOK a.price b.price) (pd.priceHistory t) ∧
    (pd.priceHistory t).length ≤ 100 ∧
    (pd.priceHistory t).getLast?.map PriceEntry.price = some (pd.currentPrices t)

/-! Concrete states used for concrete evaluations. -/

/-- A minimal concrete chance ledger. -/
def exampleChances : ChancesData :=
  { currentChances := DEFAULT_MARKET_CHANCES
    chanceHistory := fun m => [DEFAULT_MARKET_CHANCES m] }

/-- Live prices equal to the base prices. -/
def examplePrices : Ticker → ℚ := BASE_TICKER_PRICES

/-- A concrete MONTHLY prediction lot whose frozen target equals the DDR5 base
price (an exact settlement tie). -/
def examplePredPosition : PredPosition :=
  { id := 1, marketId := MarketId.m1, ticker := "DDR5-AUG-F", category := Ticker.DDR5
    period := Period.MONTHLY, outcome := Outcome.YES, contracts := 10
    avgEntryPrice := 64 / 100, investedAmount := 64 / 10, targetPrice := 38067 / 1000
    openedSession := 0, createdAt := "", updatedAt := "" }

/-- A concrete account holding only `examplePredPosition`. -/
def exampleMonthlyAccount : Account :=
  { buildDefaultGuestAccount with
    prediction := { buildDefaultPredictionState with openPositions := [examplePredPosition] } }

theorem jsOrQ_zero_right (x : ℚ) : jsOrQ x 0 = x := by
  unfold jsOrQ
  split <;> simp_all

theorem toFixed_le_toFixed {d : ℕ} {x y : ℚ} (h : x ≤ y) : toFixed d x ≤ toFixed d y := by
  unfold toFixed
  have hE : (0 : ℚ) < (10 : ℚ) ^ d := by positivity
  have hr : round (x * (10 : ℚ) ^ d) ≤ round (y * (10 : ℚ) ^ d) := by
    rw [round_eq, round_eq]
    exact Int.floor_le_floor (by nlinarith)
  have hr2 : ((round (x * (10 : ℚ) ^ d) : ℤ) : ℚ) ≤ ((round (y * (10 : ℚ) ^ d) : ℤ) : ℚ) := by
    exact_mod_cast hr
  exact div_le_div_of_nonneg_right hr2 hE.le

theorem toFixed_le_add_half {d : ℕ} (x : ℚ) :
    toFixed d x ≤ x + 1 / (2 * (10 : ℚ) ^ d) := by
  unfold toFixed
  have hE : (0 : ℚ) < (10 : ℚ) ^ d := by positivity
  have h := round_le_add_half (x * (10 : ℚ) ^ d)
  rw [div_le_iff₀ hE]
  have hkey : (x + 1 / (2 * (10 : ℚ) ^ d)) * (10 : ℚ) ^ d = x * (10 : ℚ) ^ d + 1 / 2 := by
    field_simp
    ring
  rw [hkey]
  exact_mod_cast h

theorem sub_half_le_toFixed {d : ℕ} (x : ℚ) :
    x - 1 / (2 * (10 : ℚ) ^ d) ≤ toFixed d x := by
  unfold toFixed
  have hE : (0 : ℚ) < (10 : ℚ) ^ d := by positivity
  have h := sub_half_lt_round (x * (10 : ℚ) ^ d)
  rw [le_div_iff₀ hE]
  have hkey : (x - 1 / (2 * (10 : ℚ) ^ d)) * (10 : ℚ) ^ d = x * (10 : ℚ) ^ d - 1 / 2 := by
    field_simp
    ring
  rw [hkey]
  have := h.le
  exact_mod_cast this

theorem toFixed_nonneg {d : ℕ} {x : ℚ} (h : 0 ≤ x) : 0 ≤ toFixed d x := by
  have h0 : toFixed d 0 = 0 := by
    unfold toFixed
    norm_num
  calc (0 : ℚ) = toFixed d 0 := h0.symm
    _ ≤ toFixed d x := toFixed_le_toFixed h

theorem le_clamp (v lo hi : ℚ) : lo ≤ clamp v lo hi := le_max_left _ _

theorem clamp_le {v lo hi : ℚ} (h : lo ≤ hi) : clamp v lo hi ≤ hi :=
  max_le h (min_le_left _ _)

theorem clamp_eq_self {v lo hi : ℚ} (h1 : lo ≤ v) (h2 : v ≤ hi) : clamp v lo hi = v := by
  unfold clamp
  rw [min_eq_right h2, max_eq_right h1]

theorem clamp_le_of_le {v lo hi c : ℚ} (hlo : lo ≤ c) (hv : v ≤ c) : clamp v lo hi ≤ c :=
  max_le hlo ((min_le_right _ _).trans hv)

theorem le_clamp_of_le {v lo hi c : ℚ} (hhi : c ≤ hi) (hv : c ≤ v) : c ≤ clamp v lo hi :=
  le_max_of_le_right (le_min hhi hv)

theorem sliceLast_length_le (n : ℕ) (l : List α) : (sliceLast n l).length ≤ n := by
  unfold sliceLast
  rw [List.length_drop]
  omega

theorem sliceLast_eq_self {n : ℕ} {l : List α} (h : l.length ≤ n) : sliceLast n l = l := by
  unfold sliceLast
  have : l.length - n = 0 := by omega
  rw [this, List.drop_zero]

theorem sliceLast_sublist (n : ℕ) (l : List α) : (sliceLast n l).Sublist l :=
  List.drop_sublist _ _

theorem sliceLast_concat_getLast? {n : ℕ} (hn : 1 ≤ n) (l : List α) (a : α) :
    (sliceLast n (l ++ [a])).getLast? = some a := by
  unfold sliceLast
  have hk : (l ++ [a]).length - n ≤ l.length := by
    rw [List.length_append]
    simp only [List.length_singleton]
    omega
  rw [List.drop_append_of_le_length hk]
  exact List.getLast?_concat _

theorem take_cons_take (a : α) (l : List α) (n : ℕ) :
    (a :: l.take n).take n = (a :: l).take n := by
  cases n with
  | zero => rfl
  | succ m =>
    simp only [List.take_succ_cons, List.take_take, Nat.min_eq_left (Nat.le_succ m)]

theorem lookup_cons_self {k : String} {v : Account} {tl : List (String × Account)} :
    ((k, v) :: tl).lookup k = some v := by
  simp [List.lookup]

theorem lookup_cons_ne {g k : String} {v : Account} {tl : List (String × Account)}
    (h : ¬ k = g) : ((k, v) :: tl).lookup g = tl.lookup g := by
  have hbeq : (g == k) = false := by simp [Ne.symm h]
  simp [List.lookup, hbeq]

theorem lookup_append_missing {l : List (String × Account)} {g : String}
    (h : l.lookup g = none) (x : Account) : (l ++ [(g, x)]).lookup g = some x := by
  induction l with
  | nil => simp [List.lookup]
  | cons hd tl ih =>
    obtain ⟨k, v⟩ := hd
    by_cases hk : k = g
    · subst hk
      rw [lookup_cons_self] at h
      exact absurd h (by simp)
    · rw [List.cons_append, lookup_cons_ne hk]
      rw [lookup_cons_ne hk] at h
      exact ih h

theorem lookup_map_override {l : List (String × Account)} {g : String} {a : Account}
    (h : (l.lookup g).isSome) :
    ((l.map fun ka => if ka.1 = g then (ka.1, a) else ka).lookup g) = some a := by
  induction l with
  | nil => simp [List.lookup] at h
  | cons hd tl ih =>
    obtain ⟨k, v⟩ := hd
    by_cases hk : k = g
    · subst hk
      simp only [List.map_cons, if_pos rfl]
      exact lookup_cons_self
    · rw [lookup_cons_ne hk] at h
      simp only [List.map_cons, if_neg hk]
      rw [lookup_cons_ne hk]
      exact ih h

/-- C10: a request whose `x-guest-id` header is absent, or whose trimmed value
does not match `^[a-zA-Z0-9_-]{4,80}$`, is keyed to the single shared account
`"guest-default"` (created lazily like any other account) instead of being
rejected; consequently all such callers resolve to one common account key, and
the synthetic trade route behaves identically to a request with no header at
all. -/
theorem C10_invalid_guest_ids_share_default_account :
    resolveGuestId none = "guest-default" ∧
    (∀ s : String,
      ¬ (4 ≤ (jsTrim s).length ∧ (jsTrim s).length ≤ 80 ∧ (jsTrim s).toList.all isGuestChar) →
      resolveGuestId (some s) = "guest-default") ∧
    (∀ h1 h2 : Option String, sanitizeGuestId h1 = none → sanitizeGuestId h2 = none →
      resolveGuestId h1 = resolveGuestId h2) ∧
    (∀ (prices : Ticker → ℚ) (cd : ChancesData) (ptb : Ticker → ℚ)
      (accounts : List (String × Account)), accounts.lookup "guest-default" = none →
      (getOrCreateGuestAccount prices cd ptb "guest-default" accounts).1.lookup
          "guest-default" =
        some (getOrCreateGuestAccount prices cd ptb "guest-default" accounts).2) ∧
    (∀ (prices : Ticker → ℚ) (cd : ChancesData) (ptb : Ticker → ℚ) (header : Option String)
      (side ticker : Option String) (amount : Option ℚ) (accounts : List (String × Account)),
      sanitizeGuestId header = none →
      tradeSyntheticRoute prices cd ptb header side ticker amount accounts =
        tradeSyntheticRoute prices cd ptb none side ticker amount accounts) := by
  refine ⟨rfl, ?_, ?_, ?_, ?_⟩
  · intro s h
    simp only [resolveGuestId, sanitizeGuestId, if_neg h]
    rfl
  · intro h1 h2 e1 e2
    simp [resolveGuestId, e1, e2]
  · intro prices cd ptb accounts h
    unfold getOrCreateGuestAccount
    simp only [h, Option.isNone_none, if_true]
    have hbase :
        (accounts ++
          [("guest-default",
            ensureAccountShape prices cd ptb (some (accountToRaw buildDefaultGuestAccount)))]).lookup
          "guest-default" = some (ensureAccountShape prices cd ptb
            (some (accountToRaw buildDefaultGuestAccount))) := lookup_append_missing h _
    rw [lookup_map_override (by rw [hbase]; rfl)]
  · intro prices cd ptb header side ticker amount accounts h
    unfold tradeSyntheticRoute
    rw [show resolveGuestId header = resolveGuestId none from by
      unfold resolveGuestId
      rw [h]
      rfl]

/-- Witness for `C10_invalid_guest_ids_share_default_account` at concrete
invalid guest ids. -/
theorem C10_invalid_guest_ids_share_default_account_witness :
    resolveGuestId (some "ab") = "guest-default" ∧
    resolveGuestId (some "bad id!") = "guest-default" :=
  ⟨C10_invalid_guest_ids_share_default_account.2.1 "ab" (by decide),
    C10_invalid_guest_ids_share_default_account.2.1 "bad id!" (by decide)⟩

/-- C9 fails on the code: a synthetic trade request whose side is the invalid
string `"HOLD"` is not rejected as `InvalidInput` — the route coerces it to
BUY, executes the trade, and mutates the account (cash drops from the default
1000 to 950). -/
theorem C9_invalid_side_executes_counterexample :
    (tradeSyntheticRoute examplePrices exampleChances examplePrices none (some "HOLD")
        (some "DDR5") (some 50) []).1.ok = true ∧
    (tradeSyntheticRoute examplePrices exampleChances examplePrices none (some "HOLD")
        (some "DDR5") (some 50) []).1.account.cashBalance = 950 ∧
    buildDefaultGuestAccount.cashBalance = 1000 := by
  refine ⟨by decide, by decide, by decide⟩

/-- C9 (amended): a submitted trade whose side is not exactly `"SELL"` is
coerced to `"BUY"` (and a prediction outcome that is not exactly `"NO"` is
coerced to `"YES"`) and processed normally rather than rejected; the engine
rejects before any mutation, with a stable reason string, only on the
executor-level validations: unknown ticker or market id, and — when the
executor is invoked directly, bypassing the route coercion — a side that is
neither BUY nor SELL, or an outcome that is neither YES nor NO. -/
theorem C9_side_and_outcome_are_coerced_not_rejected :
    (∀ (prices : Ticker → ℚ) (cd : ChancesData) (ptb : Ticker → ℚ) (header : Option String)
      (side ticker : Option String) (amount : Option ℚ) (accounts : List (String × Account)),
      side ≠ some "SELL" →
      tradeSyntheticRoute prices cd ptb header side ticker amount accounts =
        tradeSyntheticRoute prices cd ptb header (some "BUY") ticker amount accounts) ∧
    (∀ (prices : Ticker → ℚ) (cd : ChancesData) (ptb : Ticker → ℚ) (skip : ℚ)
      (header : Option String) (side marketId outcome : Option String)
      (amount contracts : Option ℚ) (accounts : List (String × Account)),
      outcome ≠ some "NO" →
      tradePredictionRoute prices cd ptb skip header side marketId outcome amount contracts
          accounts =
        tradePredictionRoute prices cd ptb skip header side marketId (some "YES") amount
          contracts accounts) ∧
    (∀ (prices : Ticker → ℚ) (cd : ChancesData) (account : Account) (side ticker : String)
      (amount : Option ℚ) (t : Ticker) (u : ℚ),
      side ≠ "BUY" → side ≠ "SELL" → tickerOfString ticker = some t →
      amount = some u → 0 < u →
      executeSyntheticTrade prices cd account side ticker amount =
        ⟨false, some "Invalid side", account⟩) ∧
    (∀ (prices : Ticker → ℚ) (cd : ChancesData) (account : Account) (side ticker : String)
      (amount : Option ℚ), tickerOfString ticker = none →
      executeSyntheticTrade prices cd account side ticker amount =
        ⟨false, some "Invalid ticker", account⟩) ∧
    (∀ (prices : Ticker → ℚ) (cd : ChancesData) (ptb : Ticker → ℚ) (skip : ℚ)
      (account : Account) (side marketId outcome : String) (amount contracts : Option ℚ)
      (m : MarketId), marketOfString marketId = some m → outcome ≠ "YES" → outcome ≠ "NO" →
      executePredictionTrade prices cd ptb skip account side marketId outcome amount contracts =
        ⟨false, some "Invalid outcome", account⟩) ∧
    (∀ (prices : Ticker → ℚ) (cd : ChancesData) (ptb : Ticker → ℚ) (skip : ℚ)
      (account : Account) (side marketId outcome : String) (amount contracts : Option ℚ),
      marketOfString marketId = none →
      executePredictionTrade prices cd ptb skip account side marketId outcome amount contracts =
        ⟨false, some "Invalid market id", account⟩) := by
  refine ⟨?_, ?_, ?_, ?_, ?_, ?_⟩
  · intro prices cd ptb header side ticker amount accounts h
    unfold tradeSyntheticRoute
    rw [if_neg h, if_neg (by simp : ¬ (some "BUY" : Option String) = some "SELL")]
  · intro prices cd ptb skip header side marketId outcome amount contracts accounts h
    unfold tradePredictionRoute
    rw [if_neg h, if_neg (by simp : ¬ (some "YES" : Option String) = some "NO")]
  · intro prices cd account side ticker amount t u h1 h2 ht ha hu
    subst ha
    unfold executeSyntheticTrade
    rw [ht]
    simp only [if_neg (not_le.mpr hu), if_neg h1, if_neg h2]
  · intro prices cd account side ticker amount ht
    unfold executeSyntheticTrade
    rw [ht]
  · intro prices cd ptb skip account side marketId outcome amount contracts m hm h1 h2
    unfold executePredictionTrade
    rw [hm]
    exact if_pos (show outcome ≠ "YES" ∧ outcome ≠ "NO" from ⟨h1, h2⟩)
  · intro prices cd ptb skip account side marketId outcome amount contracts hm
    unfold executePredictionTrade
    rw [hm]

/-- Witness for `C9_side_and_outcome_are_coerced_not_rejected` at concrete
inputs. -/
theorem C9_side_and_outcome_are_coerced_not_rejected_witness :
    tradeSyntheticRoute examplePrices exampleChances examplePrices none (some "HOLD")
        (some "DDR5") (some 50) [] =
      tradeSyntheticRoute examplePrices exampleChances examplePrices none (some "BUY")
        (some "DDR5") (some 50) [] ∧
    executeSyntheticTrade examplePrices exampleChances buildDefaultGuestAccount "HOLD" "DDR5"
        (some 50) =
      ⟨false, some "Invalid side", buildDefaultGuestAccount⟩ :=
  ⟨C9_side_and_outcome_are_coerced_not_rejected.1 examplePrices exampleChances examplePrices
      none (some "HOLD") (some "DDR5") (some 50) [] (by decide),
    C9_side_and_outcome_are_coerced_not_rejected.2.2.1 examplePrices exampleChances
      buildDefaultGuestAccount "HOLD" "DDR5" (some 50) Ticker.DDR5 50 (by decide) (by decide)
      (by decide) rfl (by decide)⟩

/-- C5: a BUY (synthetic or prediction) with a non-finite, non-positive, or
cash-exceeding amount is rejected with no state mutation; an accepted BUY
debits cash by exactly the amount (at 2-decimal rounding), creates one new lot
with `investedAmount` equal to the amount, `avgEntryPrice` equal to the fill
price and `units`/`contracts` equal to amount divided by the fill price (at
the engine's persisted precisions), and appends a BUY order record; and no BUY
ever drives the cash balance negative. -/
theorem C5_buy_validation_and_effects :
    (∀ (prices : Ticker → ℚ) (cd : ChancesData) (account : Account) (ticker : String)
      (t : Ticker) (usd : ℚ), tickerOfString ticker = some t → 0 < usd →
      usd ≤ account.cashBalance →
      (executeSyntheticTrade prices cd account "BUY" ticker (some usd)).ok = true ∧
      (executeSyntheticTrade prices cd account "BUY" ticker (some usd)).account.cashBalance =
        toFixed 2 (account.cashBalance - usd) ∧
      (executeSyntheticTrade prices cd account "BUY" ticker
          (some usd)).account.synthetic.openPositions =
        account.synthetic.openPositions ++
          [{ id := account.synthetic.nextPositionId, ticker := t
             units := toFixed 6 (usd / getSyntheticQuote prices t)
             avgEntryPrice := toFixed 4 (getSyntheticQuote prices t)
             investedAmount := toFixed 4 usd, createdAt := "", updatedAt := "" }] ∧
      (executeSyntheticTrade prices cd account "BUY" ticker
          (some usd)).account.synthetic.orderHistory.head? =
        some
          { id := account.synthetic.nextOrderId, type := SynOrderType.BUY, ticker := t
            units := toFixed 6 (usd / getSyntheticQuote prices t)
            price := toFixed 4 (getSyntheticQuote prices t)
            amount := toFixed 4 usd, realizedPnl := 0, createdAt := "" }) ∧
    (∀ (prices : Ticker → ℚ) (cd : ChancesData) (account : Account) (ticker : String)
      (t : Ticker), tickerOfString ticker = some t →
      executeSyntheticTrade prices cd account "BUY" ticker none =
        ⟨false, some "Invalid amount", account⟩) ∧
    (∀ (prices : Ticker → ℚ) (cd : ChancesData) (account : Account) (ticker : String)
      (t : Ticker) (usd : ℚ), tickerOfString ticker = some t → usd ≤ 0 →
      executeSyntheticTrade prices cd account "BUY" ticker (some usd) =
        ⟨false, some "Invalid amount", account⟩) ∧
    (∀ (prices : Ticker → ℚ) (cd : ChancesData) (account : Account) (ticker : String)
      (t : Ticker) (usd : ℚ), tickerOfString ticker = some t → 0 < usd →
      usd > account.cashBalance →
      executeSyntheticTrade prices cd account "BUY" ticker (some usd) =
        ⟨false, some "Insufficient cash balance", account⟩) ∧
    (∀ (prices : Ticker → ℚ) (cd : ChancesData) (account : Account) (ticker : String)
      (amount : Option ℚ), 0 ≤ account.cashBalance →
      0 ≤ (executeSyntheticTrade prices cd account "BUY" ticker amount).account.cashBalance) ∧
    (∀ (prices : Ticker → ℚ) (cd : ChancesData) (ptb : Ticker → ℚ) (skip : ℚ)
      (account : Account) (marketId : String) (m : MarketId) (outcome : String)
      (oc : Outcome) (usd : ℚ),
      marketOfString marketId = some m →
      (outcome = "YES" ∧ oc = Outcome.YES) ∨ (outcome = "NO" ∧ oc = Outcome.NO) →
      0 < usd → usd ≤ account.cashBalance →
      (executePredictionTrade prices cd ptb skip account "BUY" marketId outcome (some usd)
          none).ok = true ∧
      (executePredictionTrade prices cd ptb skip account "BUY" marketId outcome (some usd)
          none).account.cashBalance = toFixed 2 (account.cashBalance - usd) ∧
      (executePredictionTrade prices cd ptb skip account "BUY" marketId outcome (some usd)
          none).account.prediction.openPositions =
        account.prediction.openPositions ++
          [{ id := account.prediction.nextPositionId, marketId := m
             ticker := (MARKET_DEFINITIONS m).ticker
             category := (MARKET_DEFINITIONS m).category
             period := (MARKET_DEFINITIONS m).period
             outcome := oc
             contracts := toFixed 4 (usd / getCurrentContractPrice cd m oc)
             avgEntryPrice := toFixed 4 (getCurrentContractPrice cd m oc)
             investedAmount := toFixed 4 usd
             targetPrice := toFixed 3
               (jsOrQ (ptb (MARKET_DEFINITIONS m).category)
                 (jsOrQ (prices (MARKET_DEFINITIONS m).category) 0))
             openedSession := skip, createdAt := "", updatedAt := "" }] ∧
      ((executePredictionTrade prices cd ptb skip account "BUY" marketId outcome (some usd)
              none).account.prediction.orderHistory.head?.map fun o =>
            (o.type, o.contracts, o.price, o.amount)) =
        some (PredOrderType.BUY, toFixed 4 (usd / getCurrentContractPrice cd m oc),
          toFixed 4 (getCurrentContractPrice cd m oc), toFixed 4 usd)) ∧
    (∀ (prices : Ticker → ℚ) (cd : ChancesData) (ptb : Ticker → ℚ) (skip : ℚ)
      (account : Account) (marketId : String) (m : MarketId) (outcome : String),
      marketOfString marketId = some m → outcome = "YES" ∨ outcome = "NO" →
      executePredictionTrade prices cd ptb skip account "BUY" marketId outcome none none =
        ⟨false, some "Invalid buy amount", account⟩) ∧
    (∀ (prices : Ticker → ℚ) (cd : ChancesData) (ptb : Ticker → ℚ) (skip : ℚ)
      (account : Account) (marketId : String) (m : MarketId) (outcome : String) (usd : ℚ),
      marketOfString marketId = some m → outcome = "YES" ∨ outcome = "NO" → usd ≤ 0 →
      executePredictionTrade prices cd ptb skip account "BUY" marketId outcome (some usd)
          none =
        ⟨false, some "Invalid buy amount", account⟩) ∧
    (∀ (prices : Ticker → ℚ) (cd : ChancesData) (ptb : Ticker → ℚ) (skip : ℚ)
      (account : Account) (marketId : String) (m : MarketId) (outcome : String) (usd : ℚ),
      marketOfString marketId = some m → outcome = "YES" ∨ outcome = "NO" →
      0 < usd → usd > account.cashBalance →
      executePredictionTrade prices cd ptb skip account "BUY" marketId outcome (some usd)
          none =
        ⟨false, some "Insufficient cash balance", account⟩) ∧
    (∀ (prices : Ticker → ℚ) (cd : ChancesData) (ptb : Ticker → ℚ) (skip : ℚ)
      (account : Account) (marketId outcome : String) (amount : Option ℚ),
      0 ≤ account.cashBalance →
      0 ≤ (executePredictionTrade prices cd ptb skip account "BUY" marketId outcome amount
            none).account.cashBalance) := by
  refine ⟨?_, ?_, ?_, ?_, ?_, ?_, ?_, ?_, ?_, ?_⟩
  · intro prices cd account ticker t usd ht h0 hcash
    unfold executeSyntheticTrade
    simp only [ht]
    rw [if_neg (not_le.mpr h0), if_pos trivial, if_neg (not_lt.mpr hcash)]
    rw [max_eq_right (sub_nonneg.mpr hcash)]
    refine ⟨rfl, ?_, ?_, ?_⟩ <;>
      simp [recalculatePortfolioPnL, List.take_succ_cons]
  · intro prices cd account ticker t ht
    unfold executeSyntheticTrade
    rw [ht]
  · intro prices cd account ticker t usd ht h0
    unfold executeSyntheticTrade
    simp only [ht]
    rw [if_pos h0]
  · intro prices cd account ticker t usd ht h0 hcash
    unfold executeSyntheticTrade
    simp only [ht]
    rw [if_neg (not_le.mpr h0), if_pos trivial, if_pos hcash]
  · intro prices cd account ticker amount hc
    cases htk : tickerOfString ticker with
    | none =>
      unfold executeSyntheticTrade
      simp only [htk]
      exact hc
    | some t =>
      cases amount with
      | none =>
        unfold executeSyntheticTrade
        simp only [htk]
        exact hc
      | some usd =>
        unfold executeSyntheticTrade
        simp only [htk]
        by_cases h0 : usd ≤ 0
        · rw [if_pos h0]; exact hc
        · rw [if_neg h0, if_pos trivial]
          by_cases hcash : usd > account.cashBalance
          · rw [if_pos hcash]; exact hc
          · rw [if_neg hcash]
            simp only [recalculatePortfolioPnL]
            exact toFixed_nonneg (le_max_left _ _)
  · intro prices cd ptb skip account marketId m outcome oc usd hm hoc h0 hcash
    rcases hoc with ⟨rfl, rfl⟩ | ⟨rfl, rfl⟩
    · unfold executePredictionTrade
      simp only [hm]
      rw [if_neg (by simp : ¬ (("YES" : String) ≠ "YES" ∧ ("YES" : String) ≠ "NO"))]
      rw [if_pos trivial, if_neg (not_le.mpr h0), if_neg (not_lt.mpr hcash)]
      rw [if_neg (by simp : ¬ ("YES" : String) = "NO")]
      rw [max_eq_right (sub_nonneg.mpr hcash)]
      refine ⟨rfl, ?_, ?_, ?_⟩ <;>
        simp [recalculatePortfolioPnL, appendOrderHistory, List.take_succ_cons]
    · unfold executePredictionTrade
      simp only [hm]
      rw [if_neg (by simp : ¬ (("NO" : String) ≠ "YES" ∧ ("NO" : String) ≠ "NO"))]
      rw [if_pos trivial, if_neg (not_le.mpr h0), if_neg (not_lt.mpr hcash)]
      rw [if_pos trivial]
      rw [max_eq_right (sub_nonneg.mpr hcash)]
      refine ⟨rfl, ?_, ?_, ?_⟩ <;>
        simp [recalculatePortfolioPnL, appendOrderHistory, List.take_succ_cons]
  · intro prices cd ptb skip account marketId m outcome hm hval
    rcases hval with rfl | rfl <;>
      (unfold executePredictionTrade
       simp only [hm]
       rw [if_neg (by simp), if_pos trivial])
  · intro prices cd ptb skip account marketId m outcome usd hm hval h0
    rcases hval with rfl | rfl <;>
      (unfold executePredictionTrade
       simp only [hm]
       rw [if_neg (by simp), if_pos trivial, if_pos h0])
  · intro prices cd ptb skip account marketId m outcome usd hm hval h0 hcash
    rcases hval with rfl | rfl <;>
      (unfold executePredictionTrade
       simp only [hm]
       rw [if_neg (by simp), if_pos trivial, if_neg (not_le.mpr h0), if_pos hcash])
  · intro prices cd ptb skip account marketId outcome amount hc
    cases hmk : marketOfString marketId with
    | none =>
      unfold executePredictionTrade
      simp only [hmk]
      exact hc
    | some m =>
      cases amount with
      | none =>
        unfold executePredictionTrade
        simp only [hmk]
        by_cases hoc : outcome ≠ "YES" ∧ outcome ≠ "NO"
        · rw [if_pos hoc]; exact hc
        · rw [if_neg hoc, if_pos trivial]
          exact hc
      | some usd =>
        unfold executePredictionTrade
        simp only [hmk]
        by_cases hoc : outcome ≠ "YES" ∧ outcome ≠ "NO"
        · rw [if_pos hoc]; exact hc
        · rw [if_neg hoc, if_pos trivial]
          by_cases h0 : usd ≤ 0
          · rw [if_pos h0]; exact hc
          · rw [if_neg h0]
            by_cases hcash : usd > account.cashBalance
            · rw [if_pos hcash]; exact hc
            · rw [if_neg hcash]
              simp only [recalculatePortfolioPnL, appendOrderHistory]
              exact toFixed_nonneg (le_max_left _ _)

/-- Witness for `C5_buy_validation_and_effects` at a concrete accepted and a
concrete rejected BUY. -/
theorem C5_buy_validation_and_effects_witness :
    (executeSyntheticTrade examplePrices exampleChances buildDefaultGuestAccount "BUY" "DDR5"
        (some 400)).ok = true ∧
    executeSyntheticTrade examplePrices exampleChances buildDefaultGuestAccount "BUY" "DDR5"
        (some 5000) =
      ⟨false, some "Insufficient cash balance", buildDefaultGuestAccount⟩ ∧
    (executePredictionTrade examplePrices exampleChances examplePrices 0
        buildDefaultGuestAccount "BUY" "1" "YES" (some 50) none).ok = true ∧
    (executePredictionTrade examplePrices exampleChances examplePrices 0
        buildDefaultGuestAccount "BUY" "1" "NO" (some 50) none).ok = true ∧
    (executePredictionTrade examplePrices exampleChances examplePrices 0
        buildDefaultGuestAccount "BUY" "1" "NO" (some 50)
          none).account.prediction.openPositions =
      buildDefaultGuestAccount.prediction.openPositions ++
        [{ id := buildDefaultGuestAccount.prediction.nextPositionId, marketId := MarketId.m1
           ticker := (MARKET_DEFINITIONS MarketId.m1).ticker
           category := (MARKET_DEFINITIONS MarketId.m1).category
           period := (MARKET_DEFINITIONS MarketId.m1).period
           outcome := Outcome.NO
           contracts := toFixed 4
             (50 / getCurrentContractPrice exampleChances MarketId.m1 Outcome.NO)
           avgEntryPrice := toFixed 4
             (getCurrentContractPrice exampleChances MarketId.m1 Outcome.NO)
           investedAmount := toFixed 4 50
           targetPrice := toFixed 3
             (jsOrQ (examplePrices (MARKET_DEFINITIONS MarketId.m1).category)
               (jsOrQ (examplePrices (MARKET_DEFINITIONS MarketId.m1).category) 0))
           openedSession := 0, createdAt := "", updatedAt := "" }] ∧
    executePredictionTrade examplePrices exampleChances examplePrices 0
        buildDefaultGuestAccount "BUY" "1" "NO" (some 5000) none =
      ⟨false, some "Insufficient cash balance", buildDefaultGuestAccount⟩ :=
  ⟨(C5_buy_validation_and_effects.1 examplePrices exampleChances buildDefaultGuestAccount
      "DDR5" Ticker.DDR5 400 (by decide) (by decide) (by decide)).1,
    C5_buy_validation_and_effects.2.2.2.1 examplePrices exampleChances buildDefaultGuestAccount
      "DDR5" Ticker.DDR5 5000 (by decide) (by decide) (by decide),
    (C5_buy_validation_and_effects.2.2.2.2.2.1 examplePrices exampleChances examplePrices 0
      buildDefaultGuestAccount "1" MarketId.m1 "YES" Outcome.YES 50 (by decide)
      (Or.inl ⟨rfl, rfl⟩) (by decide) (by decide)).1,
    (C5_buy_validation_and_effects.2.2.2.2.2.1 examplePrices exampleChances examplePrices 0
      buildDefaultGuestAccount "1" MarketId.m1 "NO" Outcome.NO 50 (by decide)
      (Or.inr ⟨rfl, rfl⟩) (by decide) (by decide)).1,
    (C5_buy_validation_and_effects.2.2.2.2.2.1 examplePrices exampleChances examplePrices 0
      buildDefaultGuestAccount "1" MarketId.m1 "NO" Outcome.NO 50 (by decide)
      (Or.inr ⟨rfl, rfl⟩) (by decide) (by decide)).2.2.1,
    C5_buy_validation_and_effects.2.2.2.2.2.2.2.2.1 examplePrices exampleChances examplePrices
      0 buildDefaultGuestAccount "1" MarketId.m1 "NO" 5000 (by decide) (Or.inr rfl)
      (by decide) (by decide)⟩

theorem executeSyntheticTrade_reject_unchanged (prices : Ticker → ℚ) (cd : ChancesData)
    (account : Account) (side ticker : String) (amount : Option ℚ) :
    (executeSyntheticTrade prices cd account side ticker amount).ok = false →
    (executeSyntheticTrade prices cd account side ticker amount).account = account := by
  cases htk : tickerOfString ticker with
  | none =>
    unfold executeSyntheticTrade
    simp only [htk]
    intro _
    trivial
  | some t =>
    cases amount with
    | none =>
      unfold executeSyntheticTrade
      simp only [htk]
      intro _
      trivial
    | some usd =>
      unfold executeSyntheticTrade
      simp only [htk]
      split_ifs <;> intro h <;> first | rfl | simp at h

theorem executePredictionTrade_reject_unchanged (prices : Ticker → ℚ) (cd : ChancesData)
    (ptb : Ticker → ℚ) (skip : ℚ) (account : Account) (side marketId outcome : String)
    (amount contracts : Option ℚ) :
    (executePredictionTrade prices cd ptb skip account side marketId outcome amount
        contracts).ok = false →
    (executePredictionTrade prices cd ptb skip account side marketId outcome amount
        contracts).account = account := by
  cases hmk : marketOfString marketId with
  | none =>
    unfold executePredictionTrade
    simp only [hmk]
    intro _
    trivial
  | some m =>
    cases amount with
    | none =>
      cases contracts with
      | none =>
        unfold executePredictionTrade
        simp only [hmk]
        split_ifs <;> intro h <;> first | rfl | simp at h
      | some q =>
        unfold executePredictionTrade
        simp only [hmk]
        split_ifs <;> intro h <;> first | rfl | simp at h
    | some usd =>
      cases contracts with
      | none =>
        unfold executePredictionTrade
        simp only [hmk]
        split_ifs <;> intro h <;> first | rfl | simp at h
      | some q =>
        unfold executePredictionTrade
        simp only [hmk]
        split_ifs <;> intro h <;> first | rfl | simp at h

/-- C4: a SELL whose requested quantity exceeds the summed matching open-lot
quantity plus the epsilon tolerance is rejected with an insufficient-inventory
error and the account is left exactly as before; and every rejection on any
later validation step of either executor likewise leaves the account
unchanged. -/
theorem C4_sell_insufficiency_and_atomic_rejection :
    (∀ (prices : Ticker → ℚ) (cd : ChancesData) (account : Account) (ticker : String)
      (t : Ticker) (usd : ℚ), tickerOfString ticker = some t → 0 < usd →
      usd / getSyntheticQuote prices t >
        synOwnedUnits t account.synthetic.openPositions + 1 / 10000 →
      executeSyntheticTrade prices cd account "SELL" ticker (some usd) =
        ⟨false, some "Insufficient units to sell", account⟩) ∧
    (∀ (prices : Ticker → ℚ) (cd : ChancesData) (ptb : Ticker → ℚ) (skip : ℚ)
      (account : Account) (marketId : String) (m : MarketId) (os : String)
      (amount : Option ℚ) (q : ℚ), marketOfString marketId = some m →
      (os = "YES" ∨ os = "NO") → 0 < q →
      q > predOwnedContracts m (if os = "NO" then Outcome.NO else Outcome.YES)
            account.prediction.openPositions + 1 / 100 →
      executePredictionTrade prices cd ptb skip account "SELL" marketId os amount (some q) =
        ⟨false, some "Not enough contracts to sell", account⟩) ∧
    (∀ (prices : Ticker → ℚ) (cd : ChancesData) (account : Account) (side ticker : String)
      (amount : Option ℚ),
      (executeSyntheticTrade prices cd account side ticker amount).ok = false →
      (executeSyntheticTrade prices cd account side ticker amount).account = account) ∧
    (∀ (prices : Ticker → ℚ) (cd : ChancesData) (ptb : Ticker → ℚ) (skip : ℚ)
      (account : Account) (side marketId outcome : String) (amount contracts : Option ℚ),
      (executePredictionTrade prices cd ptb skip account side marketId outcome amount
          contracts).ok = false →
      (executePredictionTrade prices cd ptb skip account side marketId outcome amount
          contracts).account = account) := by
  refine ⟨?_, ?_, executeSyntheticTrade_reject_unchanged,
    executePredictionTrade_reject_unchanged⟩
  · intro prices cd account ticker t usd ht h0 hreq
    unfold executeSyntheticTrade
    simp only [ht]
    rw [if_neg (not_le.mpr h0), if_pos hreq]
    rw [if_neg (by simp : ¬ ("SELL" : String) = "BUY"), if_pos trivial]
  · intro prices cd ptb skip account marketId m os amount q hm hos h0 hreq
    unfold executePredictionTrade
    simp only [hm]
    have hosn : ¬ (os ≠ "YES" ∧ os ≠ "NO") := by
      rcases hos with h | h <;> simp [h]
    rw [if_neg hosn]
    rw [if_neg (not_le.mpr h0), if_pos hreq]
    rw [if_neg (by simp : ¬ ("SELL" : String) = "BUY"), if_pos trivial]

/-- Witness for `C4_sell_insufficiency_and_atomic_rejection` at concrete
oversells against an empty book. -/
theorem C4_sell_insufficiency_and_atomic_rejection_witness :
    executeSyntheticTrade examplePrices exampleChances buildDefaultGuestAccount "SELL" "DDR5"
        (some 100) =
      ⟨false, some "Insufficient units to sell", buildDefaultGuestAccount⟩ ∧
    executePredictionTrade examplePrices exampleChances examplePrices 0
        buildDefaultGuestAccount "SELL" "1" "YES" none (some 5) =
      ⟨false, some "Not enough contracts to sell", buildDefaultGuestAccount⟩ :=
  ⟨C4_sell_insufficiency_and_atomic_rejection.1 examplePrices exampleChances
      buildDefaultGuestAccount "DDR5" Ticker.DDR5 100 (by decide) (by decide) (by decide),
    C4_sell_insufficiency_and_atomic_rejection.2.1 examplePrices exampleChances examplePrices
      0 buildDefaultGuestAccount "1" MarketId.m1 "YES" none 5 (by decide) (Or.inl rfl)
      (by decide) (by decide)⟩

theorem take_append_take (n : ℕ) (a b : List α) : (a ++ b.take n).take n = (a ++ b).take n := by
  rw [List.take_append_eq_append_take, @List.take_append_eq_append_take _ a _ _,
    List.take_take]
  congr 2
  omega

theorem settle_isWinning_iff (prices : Ticker → ℚ) (p : PredPosition) :
    (p.outcome = (if prices p.category > p.targetPrice then Outcome.YES else Outcome.NO)) ↔
      settleWins prices p := by
  unfold settleWins
  by_cases hgt : prices p.category > p.targetPrice <;> cases ho : p.outcome <;>
    simp [hgt, ho]

theorem keepsPosition_true_iff (skip : ℚ) (p : PredPosition) :
    keepsPosition skip p = true ↔ (p.period = Period.MONTHLY ∨ skip - p.openedSession < 3) := by
  unfold keepsPosition
  simp

theorem keepsPosition_false_iff (skip : ℚ) (p : PredPosition) :
    keepsPosition skip p = false ↔
      (p.period = Period.DAILY ∧ 3 ≤ skip - p.openedSession) := by
  unfold keepsPosition
  cases hper : p.period <;> simp [hper, not_lt]

theorem settlePosStep_keep {skip : ℚ} {prices : Ticker → ℚ} {acc : SettleAcc}
    {p : PredPosition} (h : keepsPosition skip p = true) :
    settlePosStep skip prices acc p = { acc with stillOpen := acc.stillOpen ++ [p] } := by
  rcases (keepsPosition_true_iff skip p).mp h with hm | hs
  · unfold settlePosStep
    rw [if_pos hm]
  · unfold settlePosStep
    by_cases hm : p.period = Period.MONTHLY
    · rw [if_pos hm]
    · rw [if_neg hm, if_pos hs]

theorem settlePosStep_due {skip : ℚ} {prices : Ticker → ℚ} {acc : SettleAcc}
    {p : PredPosition} (h : keepsPosition skip p = false) :
    settlePosStep skip prices acc p =
      { stillOpen := acc.stillOpen
        cashBalance := toFixed 2 (acc.cashBalance + settlePayout prices p)
        realizedPnL := toFixed 4 (acc.realizedPnL + (settlePayout prices p - p.investedAmount))
        nextOrderId := acc.nextOrderId + 1
        orderHistory :=
          (mkSettleOrder skip prices acc.nextOrderId p :: acc.orderHistory).take 500 } := by
  obtain ⟨hd, hs⟩ := (keepsPosition_false_iff skip p).mp h
  have hm : ¬ p.period = Period.MONTHLY := by
    rw [hd]
    simp
  unfold settlePosStep
  rw [if_neg hm, if_neg (not_lt.mpr hs)]
  simp only [jsOrQ_zero_right]
  simp only [settle_isWinning_iff]
  unfold mkSettleOrder settlePayout
  rfl

theorem settle_foldl_stillOpen (skip : ℚ) (prices : Ticker → ℚ) :
    ∀ (l : List PredPosition) (acc : SettleAcc),
    (l.foldl (settlePosStep skip prices) acc).stillOpen =
      acc.stillOpen ++ l.filter (keepsPosition skip) := by
  intro l
  induction l with
  | nil => intro acc; simp
  | cons p l ih =>
    intro acc
    rw [List.foldl_cons, List.filter_cons]
    cases hk : keepsPosition skip p with
    | true =>
      rw [settlePosStep_keep hk, ih]
      simp
    | false =>
      rw [settlePosStep_due hk, ih]
      simp

theorem settle_foldl_cash (skip : ℚ) (prices : Ticker → ℚ) :
    ∀ (l : List PredPosition) (acc : SettleAcc),
    (l.foldl (settlePosStep skip prices) acc).cashBalance =
      (l.filter fun p => ! keepsPosition skip p).foldl
        (fun c p => toFixed 2 (c + settlePayout prices p)) acc.cashBalance := by
  intro l
  induction l with
  | nil => intro acc; simp
  | cons p l ih =>
    intro acc
    rw [List.foldl_cons, List.filter_cons]
    cases hk : keepsPosition skip p with
    | true =>
      rw [settlePosStep_keep hk, ih]
      simp [hk]
    | false =>
      rw [settlePosStep_due hk, ih]
      simp [hk]

theorem settle_foldl_realized (skip : ℚ) (prices : Ticker → ℚ) :
    ∀ (l : List PredPosition) (acc : SettleAcc),
    (l.foldl (settlePosStep skip prices) acc).realizedPnL =
      (l.filter fun p => ! keepsPosition skip p).foldl
        (fun r p => toFixed 4 (r + (settlePayout prices p - p.investedAmount)))
        acc.realizedPnL := by
  intro l
  induction l with
  | nil => intro acc; simp
  | cons p l ih =>
    intro acc
    rw [List.foldl_cons, List.filter_cons]
    cases hk : keepsPosition skip p with
    | true =>
      rw [settlePosStep_keep hk, ih]
      simp [hk]
    | false =>
      rw [settlePosStep_due hk, ih]
      simp [hk]

theorem settle_foldl_orders (skip : ℚ) (prices : Ticker → ℚ) :
    ∀ (l : List PredPosition) (acc : SettleAcc),
    ∃ newOrders : List PredOrder,
      (∀ o ∈ newOrders, o.type = PredOrderType.SETTLEMENT) ∧
      newOrders.length = (l.filter fun p => ! keepsPosition skip p).length ∧
      ((newOrders = [] ∧
          (l.foldl (settlePosStep skip prices) acc).orderHistory = acc.orderHistory) ∨
        (l.foldl (settlePosStep skip prices) acc).orderHistory =
          (newOrders ++ acc.orderHistory).take 500) := by
  intro l
  induction l with
  | nil =>
    intro acc
    exact ⟨[], by simp, by simp, Or.inl ⟨rfl, rfl⟩⟩
  | cons p l ih =>
    intro acc
    rw [List.foldl_cons, List.filter_cons]
    cases hk : keepsPosition skip p with
    | true =>
      rw [settlePosStep_keep hk]
      obtain ⟨new, hall, hlen, hcase⟩ := ih _
      exact ⟨new, hall, by simpa using hlen, hcase⟩
    | false =>
      rw [settlePosStep_due hk]
      obtain ⟨new, hall, hlen, hcase⟩ := ih _
      refine ⟨new ++ [mkSettleOrder skip prices acc.nextOrderId p], ?_, ?_, Or.inr ?_⟩
      · intro o ho
        rcases List.mem_append.mp ho with h1 | h1
        · exact hall o h1
        · rw [List.mem_singleton.mp h1]
          rfl
      · simp only [List.length_append, List.length_singleton, List.length_cons, hlen]
        simp
      · rcases hcase with ⟨hnil, hoh⟩ | hoh
        · subst hnil
          rw [hoh]
          simp
        · rw [hoh, take_append_take]
          congr 1
          simp
/-- C1: at every session advance the sweeper visits every account.  An open
prediction lot is removed by the sweep iff it is DAILY and
`skipSessionCount - openedSession ≥ 3` (MONTHLY lots always survive); a
settled lot pays out its full contract count iff `(current price > frozen
target)` coincides with `(outcome = YES)`, an exact tie resolving to NO; the
payout is credited to cash (2-decimal rounding per credit), payout minus
`investedAmount` is accumulated into the permanent realized-P&L accumulator
(4-decimal rounding per step), and one SETTLEMENT order is appended per
settled lot. -/
theorem C1_daily_settlement_exactness :
    (∀ (skip : ℚ) (prices : Ticker → ℚ) (cd : ChancesData)
      (accounts : List (String × Account)),
      settleDuePredictionPositions skip prices cd accounts =
        accounts.map fun ka => (ka.1, settleAccount skip prices cd ka.2)) ∧
    (∀ (skip : ℚ) (prices : Ticker → ℚ) (cd : ChancesData) (a : Account),
      (settleAccount skip prices cd a).prediction.openPositions =
        a.prediction.openPositions.filter (keepsPosition skip)) ∧
    (∀ (skip : ℚ) (p : PredPosition),
      keepsPosition skip p = false ↔
        (p.period = Period.DAILY ∧ 3 ≤ skip - p.openedSession)) ∧
    (∀ (prices : Ticker → ℚ) (p : PredPosition),
      settlePayout prices p =
        if (prices p.category > p.targetPrice) ↔ (p.outcome = Outcome.YES) then p.contracts
        else 0) ∧
    (∀ (prices : Ticker → ℚ) (p : PredPosition), prices p.category = p.targetPrice →
      settlePayout prices p = if p.outcome = Outcome.NO then p.contracts else 0) ∧
    (∀ (skip : ℚ) (prices : Ticker → ℚ) (cd : ChancesData) (a : Account),
      (settleAccount skip prices cd a).cashBalance =
        (a.prediction.openPositions.filter fun p => ! keepsPosition skip p).foldl
          (fun c p => toFixed 2 (c + settlePayout prices p)) a.cashBalance) ∧
    (∀ (skip : ℚ) (prices : Ticker → ℚ) (cd : ChancesData) (a : Account),
      (settleAccount skip prices cd a).prediction.realizedPnL =
        (a.prediction.openPositions.filter fun p => ! keepsPosition skip p).foldl
          (fun r p => toFixed 4 (r + (settlePayout prices p - p.investedAmount)))
          a.prediction.realizedPnL) ∧
    (∀ (skip : ℚ) (prices : Ticker → ℚ) (cd : ChancesData) (a : Account),
      ∃ newOrders : List PredOrder,
        (∀ o ∈ newOrders, o.type = PredOrderType.SETTLEMENT) ∧
        newOrders.length =
          (a.prediction.openPositions.filter fun p => ! keepsPosition skip p).length ∧
        ((newOrders = [] ∧
            (settleAccount skip prices cd a).prediction.orderHistory =
              a.prediction.orderHistory) ∨
          (settleAccount skip prices cd a).prediction.orderHistory =
            (newOrders ++ a.prediction.orderHistory).take 500)) ∧
    (∀ (skip : ℚ) (prices : Ticker → ℚ) (cd : ChancesData) (a : Account) (p : PredPosition),
      p ∈ a.prediction.openPositions → p.period = Period.MONTHLY →
      p ∈ (settleAccount skip prices cd a).prediction.openPositions) := by
  have hopen : ∀ (skip : ℚ) (prices : Ticker → ℚ) (cd : ChancesData) (a : Account),
      (settleAccount skip prices cd a).prediction.openPositions =
        a.prediction.openPositions.filter (keepsPosition skip) := by
    intro skip prices cd a
    simp only [settleAccount, recalculatePortfolioPnL]
    rw [settle_foldl_stillOpen]
    simp
  refine ⟨fun _ _ _ _ => rfl, hopen, keepsPosition_false_iff, fun _ _ => rfl, ?_, ?_, ?_, ?_, ?_⟩
  · intro prices p h
    cases ho : p.outcome <;> simp [settlePayout, settleWins, h, ho, lt_irrefl]
  · intro skip prices cd a
    simp only [settleAccount, recalculatePortfolioPnL]
    rw [settle_foldl_cash]
  · intro skip prices cd a
    simp only [settleAccount, recalculatePortfolioPnL]
    rw [settle_foldl_realized]
  · intro skip prices cd a
    obtain ⟨new, hall, hlen, hcase⟩ :=
      settle_foldl_orders skip prices a.prediction.openPositions
        { stillOpen := [], cashBalance := a.cashBalance
          realizedPnL := a.prediction.realizedPnL
          nextOrderId := a.prediction.nextOrderId
          orderHistory := a.prediction.orderHistory }
    exact ⟨new, hall, hlen, hcase⟩
  · intro skip prices cd a p hp hm
    rw [hopen]
    rw [List.mem_filter]
    refine ⟨hp, ?_⟩
    rw [keepsPosition_true_iff]
    exact Or.inl hm

/-- Witness for `C1_daily_settlement_exactness`: an exact price-target tie
pays 0 to a YES lot, and a MONTHLY lot survives a sweep at session 5. -/
theorem C1_daily_settlement_exactness_witness :
    settlePayout examplePrices examplePredPosition = 0 ∧
    examplePredPosition ∈
      (settleAccount 5 examplePrices exampleChances
          exampleMonthlyAccount).prediction.openPositions :=
  ⟨(C1_daily_settlement_exactness.2.2.2.2.1 examplePrices examplePredPosition
      (by decide)).trans (by decide),
    C1_daily_settlement_exactness.2.2.2.2.2.2.2.2 5 examplePrices exampleChances
      exampleMonthlyAccount examplePredPosition (by decide) rfl⟩

theorem jsOrQ_of_ne {x : ℚ} (h : x ≠ 0) (fb : ℚ) : jsOrQ x fb = x := by
  simp [jsOrQ, h]

theorem sliceLast_getLast? {n : ℕ} (hn : 1 ≤ n) (l : List α) :
    (sliceLast n l).getLast? = l.getLast? := by
  unfold sliceLast
  cases l with
  | nil => simp
  | cons a l0 =>
    have hne : (a :: l0).drop ((a :: l0).length - n) ≠ [] := by
      intro hcon
      have hlen := congrArg List.length hcon
      rw [List.length_drop] at hlen
      simp only [List.length_cons, List.length_nil] at hlen
      omega
    conv_rhs => rw [← List.take_append_drop ((a :: l0).length - n) (a :: l0)]
    rw [List.getLast?_append_of_ne_nil _ hne]

set_option maxRecDepth 4000 in
theorem toFixed2_one : toFixed 2 (1 : ℚ) = 1 := by decide

set_option maxRecDepth 4000 in
theorem toFixed2_ninetynine : toFixed 2 (99 : ℚ) = 99 := by decide

theorem toFixed2_clamp_chance_mem (x : ℚ) :
    1 ≤ toFixed 2 (clamp x 1 99) ∧ toFixed 2 (clamp x 1 99) ≤ 99 := by
  constructor
  · calc (1 : ℚ) = toFixed 2 1 := toFixed2_one.symm
      _ ≤ toFixed 2 (clamp x 1 99) := toFixed_le_toFixed (le_clamp _ _ _)
  · calc toFixed 2 (clamp x 1 99) ≤ toFixed 2 99 :=
        toFixed_le_toFixed (clamp_le (by norm_num))
      _ = 99 := toFixed2_ninetynine

set_option maxRecDepth 4000 in
theorem chance_bump_one_inv (v : ℚ) (hv1 : 1 ≤ v) (hv99 : v ≤ 99) (m : MarketId)
    (cd : ChancesData) (h : chanceInvariant cd) :
    chanceInvariant
      { currentChances := fun x => if x = m then v else cd.currentChances x
        chanceHistory := fun x =>
          if x = m then sliceLast 160 (cd.chanceHistory m ++ [v])
          else cd.chanceHistory x } := by
  intro x
  by_cases hx : x = m
  · subst hx
    refine ⟨by simpa using hv1, by simpa using hv99, ?_, by simpa using sliceLast_length_le 160 _⟩
    simp only [if_pos rfl]
    exact sliceLast_concat_getLast? (by norm_num) _ _
  · simpa [hx] using h x

theorem updateChances_preserves_inv (coin : Bool) (mag : MarketId → ℚ) (t : Ticker)
    (delta : ℚ) (cd : ChancesData) (h : chanceInvariant cd) :
    chanceInvariant (updateChancesForTicker coin mag t delta cd) := by
  unfold updateChancesForTicker
  generalize MARKET_IDS_BY_TICKER t = ms
  induction ms generalizing cd with
  | nil => exact h
  | cons m ms ih =>
    rw [List.foldl_cons]
    exact ih _ (chance_bump_one_inv _ (toFixed2_clamp_chance_mem _).1
      (toFixed2_clamp_chance_mem _).2 m cd h)

theorem bump_value_up {cur mag : ℚ} (hm : 2 ≤ mag) (h1 : 1 ≤ cur) (h99 : cur ≤ 99) :
    cur ≤ toFixed 2 (clamp (cur + mag) 1 99) := by
  by_cases hc : cur + mag ≤ 99
  · rw [clamp_eq_self (by linarith) hc]
    have hlo := @sub_half_le_toFixed 2 (cur + mag)
    have : (1 : ℚ) / (2 * 10 ^ 2) = 1 / 200 := by norm_num
    linarith [hlo]
  · have hcl : clamp (cur + mag) 1 99 = 99 := by
      unfold clamp
      rw [min_eq_left (le_of_lt (not_le.mp hc)), max_eq_right (by norm_num : (1 : ℚ) ≤ 99)]
    rw [hcl, toFixed2_ninetynine]
    exact h99

theorem bump_value_down {cur mag : ℚ} (hm : 2 ≤ mag) (h1 : 1 ≤ cur) (h99 : cur ≤ 99) :
    toFixed 2 (clamp (cur - mag) 1 99) ≤ cur := by
  by_cases hc : 1 ≤ cur - mag
  · rw [clamp_eq_self hc (by linarith)]
    have hhi := @toFixed_le_add_half 2 (cur - mag)
    have : (1 : ℚ) / (2 * 10 ^ 2) = 1 / 200 := by norm_num
    linarith [hhi]
  · have hcl : clamp (cur - mag) 1 99 = 1 := by
      unfold clamp
      rw [min_eq_right (by linarith), max_eq_left (le_of_lt (not_le.mp hc))]
    rw [hcl, toFixed2_one]
    exact h1

theorem sliceLast_length_le_self (n : ℕ) (l : List α) : (sliceLast n l).length ≤ l.length := by
  unfold sliceLast
  rw [List.length_drop]
  omega

set_option maxRecDepth 4000 in
theorem chance_reset_one_inv (m : MarketId) (cd : ChancesData) (h : chanceInvariant cd) :
    chanceInvariant
      { currentChances := fun x => if x = m then 50 else cd.currentChances x
        chanceHistory := fun x => if x = m then [50] else cd.chanceHistory x } := by
  intro x
  by_cases hx : x = m
  · subst hx
    exact ⟨by simp, by norm_num, by simp, by simp⟩
  · simpa [hx] using h x

theorem chance_trunc_one_inv (k : ℕ) (hk : 1 ≤ k) (m : MarketId) (cd : ChancesData)
    (h : chanceInvariant cd) :
    chanceInvariant
      { currentChances := cd.currentChances
        chanceHistory := fun x =>
          if x = m then sliceLast k (cd.chanceHistory m) else cd.chanceHistory x } := by
  intro x
  obtain ⟨h1, h2, h3, h4⟩ := h x
  by_cases hx : x = m
  · subst hx
    refine ⟨h1, h2, ?_, ?_⟩
    · simp only [if_pos rfl]
      exact (sliceLast_getLast? hk _).trans h3
    · simp only [if_pos rfl]
      exact le_trans (sliceLast_length_le_self k _) h4
  · exact ⟨h1, h2, by simpa [hx] using h3, by simpa [hx] using h4⟩

theorem chanceSeedEntries_length (deltas : ℕ → ℚ) :
    ∀ (n i : ℕ) (cur : ℚ), (chanceSeedEntries deltas i n cur).length = n := by
  intro n
  induction n with
  | zero => intro i cur; rfl
  | succ k ih =>
    intro i cur
    unfold chanceSeedEntries
    simp [ih]

theorem generateChanceSeedHistory_inv (deltas : ℕ → ℚ) (base : ℚ) :
    (generateChanceSeedHistory deltas base).getLast? = some base ∧
    (generateChanceSeedHistory deltas base).length = 60 := by
  unfold generateChanceSeedHistory
  constructor
  · exact List.getLast?_concat _
  · rw [List.length_append, List.length_dropLast, chanceSeedEntries_length]
    simp

theorem bumpFold_notMem (direction : ℚ) (mag : MarketId → ℚ) :
    ∀ (ms : List MarketId) (cd : ChancesData) (m : MarketId), m ∉ ms →
    (ms.foldl (fun cd m =>
      let current := jsOrQ (cd.currentChances m) 50
      let next := clamp (current + direction * mag m) 1 99
      let rounded := toFixed 2 next
      { currentChances := fun x => if x = m then rounded else cd.currentChances x
        chanceHistory := fun x =>
          if x = m then sliceLast 160 (cd.chanceHistory m ++ [rounded])
          else cd.chanceHistory x }) cd).currentChances m = cd.currentChances m := by
  intro ms
  induction ms with
  | nil => intro cd m _; rfl
  | cons a ms ih =>
    intro cd m hm
    rw [List.foldl_cons]
    have hma : m ≠ a := fun h => hm (h ▸ List.mem_cons_self a ms)
    rw [ih _ m (fun h => hm (List.mem_cons_of_mem a h))]
    exact if_neg hma

theorem bumpFold_value (direction : ℚ) (mag : MarketId → ℚ) :
    ∀ (ms : List MarketId) (cd : ChancesData) (m : MarketId), ms.Nodup → m ∈ ms →
    (ms.foldl (fun cd m =>
      let current := jsOrQ (cd.currentChances m) 50
      let next := clamp (current + direction * mag m) 1 99
      let rounded := toFixed 2 next
      { currentChances := fun x => if x = m then rounded else cd.currentChances x
        chanceHistory := fun x =>
          if x = m then sliceLast 160 (cd.chanceHistory m ++ [rounded])
          else cd.chanceHistory x }) cd).currentChances m =
      toFixed 2 (clamp (jsOrQ (cd.currentChances m) 50 + direction * mag m) 1 99) := by
  intro ms
  induction ms with
  | nil => intro cd m _ hm; exact absurd hm (List.not_mem_nil m)
  | cons a ms ih =>
    intro cd m hnd hm
    rw [List.foldl_cons]
    rcases List.mem_cons.mp hm with rfl | hmem
    · rw [bumpFold_notMem direction mag ms _ m (List.nodup_cons.mp hnd).1]
      exact if_pos rfl
    · have hma : m ≠ a := by
        rintro rfl
        exact absurd hmem (List.nodup_cons.mp hnd).1
      have hkeep : ∀ cd1 : ChancesData,
          ((fun x => if x = a then
              toFixed 2 (clamp (jsOrQ (cd1.currentChances a) 50 + direction * mag a) 1 99)
            else cd1.currentChances x) : MarketId → ℚ) m = cd1.currentChances m :=
        fun cd1 => if_neg hma
      rw [ih _ m (List.nodup_cons.mp hnd).2 hmem]
      exact congrArg (fun v => toFixed 2 (clamp (jsOrQ v 50 + direction * mag m) 1 99))
        (hkeep cd)

theorem updateChances_value (coin : Bool) (mag : MarketId → ℚ) (t : Ticker) (delta : ℚ)
    (cd : ChancesData) (m : MarketId) (hm : m ∈ MARKET_IDS_BY_TICKER t) :
    (updateChancesForTicker coin mag t delta cd).currentChances m =
      toFixed 2 (clamp (jsOrQ (cd.currentChances m) 50 +
        (if delta > 0 then (1 : ℚ) else if delta < 0 then -1 else if coin then -1 else 1) *
          mag m) 1 99) :=
  bumpFold_value _ mag (MARKET_IDS_BY_TICKER t) cd m (by cases t <;> decide) hm

theorem pad_overwrite_length_le {X : List ℚ} (c : ℚ) (h : X.length ≤ 160) :
    ((if X.length = 0 then X ++ [c] else X).dropLast ++ [c]).length ≤ 160 := by
  split
  · rw [List.length_append, List.length_dropLast, List.length_append]
    simp only [List.length_singleton]
    omega
  · rw [List.length_append, List.length_dropLast]
    simp only [List.length_singleton]
    omega

theorem buildDefaultChances_inv (deltas : MarketId → ℕ → ℚ) :
    chanceInvariant (buildDefaultChancesData deltas) := by
  intro m
  refine ⟨?_, ?_, ?_, ?_⟩
  · cases m <;> norm_num [buildDefaultChancesData, DEFAULT_MARKET_CHANCES]
  · cases m <;> norm_num [buildDefaultChancesData, DEFAULT_MARKET_CHANCES]
  · exact (generateChanceSeedHistory_inv _ _).1
  · exact le_of_eq_of_le (generateChanceSeedHistory_inv _ _).2 (by norm_num)

theorem sanitizeChances_inv (deltas : MarketId → ℕ → ℚ) (raw : Option RawChancesData) :
    chanceInvariant (sanitizeChancesData deltas raw) := by
  cases raw with
  | none => exact buildDefaultChances_inv deltas
  | some r =>
    intro m
    refine ⟨le_clamp _ _ _, clamp_le (by norm_num), List.getLast?_concat _, ?_⟩
    refine pad_overwrite_length_le _ ?_
    cases hh : r.chanceHistory m with
    | some l => exact sliceLast_length_le 160 _
    | none => exact le_of_eq_of_le (generateChanceSeedHistory_inv _ _).2 (by norm_num)

theorem exampleChances_inv : chanceInvariant exampleChances := by
  intro m
  cases m <;> exact ⟨by decide, by decide, rfl, by decide⟩

set_option maxHeartbeats 1000000 in
/-- C7: chances stay in `[1, 99]` with `history.last = currentChance` and a
capped history after seeding, every price-tick bump, the daily reset, the
daily-cycle truncation, and sanitize-on-load; a bump with the code's magnitude
range moves the chance weakly in the direction of the price delta's sign; and
the derived contract prices `yes = chance/100`, `no = (100-chance)/100` always
lie in `[0.01, 0.99]`. -/
theorem C7_chance_invariants_and_contract_prices :
    (∀ (coin : Bool) (mag : MarketId → ℚ) (t : Ticker) (delta : ℚ) (cd : ChancesData),
      chanceInvariant cd → chanceInvariant (updateChancesForTicker coin mag t delta cd)) ∧
    (∀ (coin : Bool) (mag : MarketId → ℚ) (t : Ticker) (delta : ℚ) (cd : ChancesData)
      (m : MarketId), m ∈ MARKET_IDS_BY_TICKER t → 2 ≤ mag m → chanceInvariant cd →
      0 < delta →
      cd.currentChances m ≤ (updateChancesForTicker coin mag t delta cd).currentChances m) ∧
    (∀ (coin : Bool) (mag : MarketId → ℚ) (t : Ticker) (delta : ℚ) (cd : ChancesData)
      (m : MarketId), m ∈ MARKET_IDS_BY_TICKER t → 2 ≤ mag m → chanceInvariant cd →
      delta < 0 →
      (updateChancesForTicker coin mag t delta cd).currentChances m ≤ cd.currentChances m) ∧
    (∀ cd : ChancesData, chanceInvariant cd → chanceInvariant (resetDailyChances cd)) ∧
    (∀ (slot : ℕ) (cd : ChancesData), chanceInvariant cd →
      chanceInvariant (truncateDailyChances slot cd)) ∧
    (∀ deltas : MarketId → ℕ → ℚ, chanceInvariant (buildDefaultChancesData deltas)) ∧
    (∀ (deltas : MarketId → ℕ → ℚ) (raw : Option RawChancesData),
      chanceInvariant (sanitizeChancesData deltas raw)) ∧
    (∀ (cd : ChancesData) (m : MarketId) (o : Outcome),
      1 / 100 ≤ getCurrentContractPrice cd m o ∧ getCurrentContractPrice cd m o ≤ 99 / 100) ∧
    (∀ (cd : ChancesData) (m : MarketId), chanceInvariant cd →
      getCurrentContractPrice cd m Outcome.YES = cd.currentChances m / 100 ∧
      getCurrentContractPrice cd m Outcome.NO = (100 - cd.currentChances m) / 100) := by
  refine ⟨updateChances_preserves_inv, ?_, ?_, ?_, ?_, buildDefaultChances_inv,
    sanitizeChances_inv, ?_, ?_⟩
  · intro coin mag t delta cd m hm hmag hinv hdelta
    obtain ⟨h1, h2, -, -⟩ := hinv m
    have hne : cd.currentChances m ≠ 0 := by
      intro h
      rw [h] at h1
      norm_num at h1
    rw [updateChances_value coin mag t delta cd m hm, if_pos hdelta, one_mul,
      jsOrQ_of_ne hne]
    exact bump_value_up hmag h1 h2
  · intro coin mag t delta cd m hm hmag hinv hdelta
    obtain ⟨h1, h2, -, -⟩ := hinv m
    have hne : cd.currentChances m ≠ 0 := by
      intro h
      rw [h] at h1
      norm_num at h1
    rw [updateChances_value coin mag t delta cd m hm, if_neg (not_lt.mpr hdelta.le),
      if_pos hdelta, neg_one_mul, ← sub_eq_add_neg, jsOrQ_of_ne hne]
    exact bump_value_down hmag h1 h2
  · intro cd h
    unfold resetDailyChances
    simp only [dailyMarketIds, List.foldl_cons, List.foldl_nil]
    exact chance_reset_one_inv _ _ (chance_reset_one_inv _ _ h)
  · intro slot cd h
    unfold truncateDailyChances
    simp only [dailyMarketIds, List.foldl_cons, List.foldl_nil]
    exact chance_trunc_one_inv _ (by omega) _ _ (chance_trunc_one_inv _ (by omega) _ _ h)
  · intro cd m o
    exact ⟨le_clamp _ _ _, clamp_le (by norm_num)⟩
  · intro cd m hinv
    obtain ⟨h1, h2, -, -⟩ := hinv m
    have hne : cd.currentChances m ≠ 0 := by
      intro h
      rw [h] at h1
      norm_num at h1
    have hyes : getCurrentContractPrice cd m Outcome.YES =
        clamp (cd.currentChances m / 100) (1 / 100) (99 / 100) := by
      unfold getCurrentContractPrice
      simp [jsOrQ_of_ne hne]
    have hno : getCurrentContractPrice cd m Outcome.NO =
        clamp ((100 - cd.currentChances m) / 100) (1 / 100) (99 / 100) := by
      unfold getCurrentContractPrice
      simp [jsOrQ_of_ne hne]
    constructor
    · rw [hyes, clamp_eq_self (by linarith) (by linarith)]
    · rw [hno, clamp_eq_self (by linarith) (by linarith)]

theorem C7_chance_invariants_and_contract_prices_witness :
    chanceInvariant exampleChances ∧
    chanceInvariant (updateChancesForTicker false (fun _ => 3) Ticker.DDR5 1 exampleChances) ∧
    exampleChances.currentChances MarketId.m1 ≤
      (updateChancesForTicker false (fun _ => 3) Ticker.DDR5 1
        exampleChances).currentChances MarketId.m1 ∧
    (updateChancesForTicker false (fun _ => 3) Ticker.DDR5 (-1)
        exampleChances).currentChances MarketId.m1 ≤
      exampleChances.currentChances MarketId.m1 ∧
    chanceInvariant (resetDailyChances exampleChances) ∧
    chanceInvariant (truncateDailyChances 0 exampleChances) ∧
    chanceInvariant (buildDefaultChancesData fun _ _ => 0) ∧
    chanceInvariant (sanitizeChancesData (fun _ _ => 0) none) ∧
    (1 / 100 ≤ getCurrentContractPrice exampleChances MarketId.m1 Outcome.YES ∧
      getCurrentContractPrice exampleChances MarketId.m1 Outcome.YES ≤ 99 / 100) ∧
    getCurrentContractPrice exampleChances MarketId.m1 Outcome.YES =
      exampleChances.currentChances MarketId.m1 / 100 :=
  ⟨exampleChances_inv,
   C7_chance_invariants_and_contract_prices.1 false (fun _ => 3) Ticker.DDR5 1
     exampleChances exampleChances_inv,
   C7_chance_invariants_and_contract_prices.2.1 false (fun _ => 3) Ticker.DDR5 1
     exampleChances MarketId.m1 (by decide) (by norm_num) exampleChances_inv (by norm_num),
   C7_chance_invariants_and_contract_prices.2.2.1 false (fun _ => 3) Ticker.DDR5 (-1)
     exampleChances MarketId.m1 (by decide) (by norm_num) exampleChances_inv (by norm_num),
   C7_chance_invariants_and_contract_prices.2.2.2.1 exampleChances exampleChances_inv,
   C7_chance_invariants_and_contract_prices.2.2.2.2.1 0 exampleChances exampleChances_inv,
   C7_chance_invariants_and_contract_prices.2.2.2.2.2.1 (fun _ _ => 0),
   C7_chance_invariants_and_contract_prices.2.2.2.2.2.2.1 (fun _ _ => 0) none,
   C7_chance_invariants_and_contract_prices.2.2.2.2.2.2.2.1 exampleChances MarketId.m1
     Outcome.YES,
   (C7_chance_invariants_and_contract_prices.2.2.2.2.2.2.2.2 exampleChances MarketId.m1
     exampleChances_inv).1⟩

theorem le_jsOrQ_zero (x : ℚ) : x ≤ jsOrQ x 0 := by
  unfold jsOrQ
  split_ifs with h
  · exact le_of_eq h
  · exact le_refl x

theorem foldl_max_init_le (f : α → ℚ) :
    ∀ (l : List α) (m0 : ℚ), m0 ≤ l.foldl (fun m p => max m (f p)) m0 := by
  intro l
  induction l with
  | nil => intro m0; exact le_refl m0
  | cons a l ih =>
    intro m0
    rw [List.foldl_cons]
    exact le_trans (le_max_left m0 (f a)) (ih (max m0 (f a)))

theorem foldl_max_le_mem (f : α → ℚ) :
    ∀ (l : List α) (m0 : ℚ) (x : α), x ∈ l →
      f x ≤ l.foldl (fun m p => max m (f p)) m0 := by
  intro l
  induction l with
  | nil => intro m0 x hx; exact absurd hx (List.not_mem_nil x)
  | cons a l ih =>
    intro m0 x hx
    rw [List.foldl_cons]
    rcases List.mem_cons.mp hx with rfl | hx
    · exact le_trans (le_max_right m0 (f x)) (foldl_max_init_le f l (max m0 (f x)))
    · exact ih (max m0 (f a)) x hx

theorem sanitizeSynPosition_eq_none_iff (p : RawSynPosition) :
    sanitizeSynPosition p = none ↔
      tickerOfString (jsOrStr p.ticker "") = none ∨ p.units = none ∨
      p.avgEntryPrice = none ∨ p.investedAmount = none ∨
      (∃ u av iv, p.units = some u ∧ p.avgEntryPrice = some av ∧
        p.investedAmount = some iv ∧ (u ≤ 0 ∨ av ≤ 0 ∨ iv ≤ 0)) := by
  unfold sanitizeSynPosition
  cases ht : tickerOfString (jsOrStr p.ticker "") with
  | none => simp
  | some t =>
    cases hu : p.units with
    | none => simp
    | some u =>
      cases ha : p.avgEntryPrice with
      | none => simp
      | some av =>
        cases hi : p.investedAmount with
        | none => simp
        | some iv =>
          by_cases hc : u ≤ 0 ∨ av ≤ 0 ∨ iv ≤ 0
          · simp [hc]
          · simp [hc]

theorem sanitizePredPosition_eq_none_iff (ptb : Ticker → ℚ) (p : RawPredPosition) :
    sanitizePredPosition ptb p = none ↔
      marketOfString (jsOrStr p.marketId "") = none ∨ p.contracts = none ∨
      p.avgEntryPrice = none ∨ p.investedAmount = none ∨
      (∃ c av iv, p.contracts = some c ∧ p.avgEntryPrice = some av ∧
        p.investedAmount = some iv ∧ (c ≤ 0 ∨ av ≤ 0 ∨ iv ≤ 0)) := by
  unfold sanitizePredPosition
  cases hm : marketOfString (jsOrStr p.marketId "") with
  | none => simp
  | some m =>
    cases hc : p.contracts with
    | none => simp
    | some c =>
      cases ha : p.avgEntryPrice with
      | none => simp
      | some av =>
        cases hi : p.investedAmount with
        | none => simp
        | some iv =>
          by_cases hle : c ≤ 0 ∨ av ≤ 0 ∨ iv ≤ 0
          · simp [hle]
          · simp [hle]

/-! Concrete fixtures for the sanitize-on-load analysis. -/

def c8RawSynPosition : RawSynPosition :=
  ⟨some 2, some "DDR5", some 1, some 1, some 1, some "", some ""⟩

def c8SynPosition : SynPosition := ⟨2, Ticker.DDR5, 1, 1, 1, "", ""⟩

def c8RawSynOrder : RawSynOrder :=
  ⟨some 5, some "SELL", some "DDR5", some 1, some 1, some 1, some 0, some ""⟩

def c8SynOrder : SynOrder := ⟨5, SynOrderType.SELL, Ticker.DDR5, 1, 1, 1, 0, ""⟩

/-- A stored synthetic book whose saved `nextPositionId` (7) is larger than
`max(existing id) + 1 = 3`. -/
def c8RawSynState : RawSyntheticState :=
  ⟨some 7, some 1, some [c8RawSynPosition], some [c8RawSynOrder]⟩

def c8RawPredPosition : RawPredPosition :=
  ⟨some 4, some "2", some "NO", some 1, some 1, some 1, some 1, some 0, some "", some ""⟩

def c8PredPosition : PredPosition :=
  ⟨4, MarketId.m2, "DDR5-DAILY", Ticker.DDR5, Period.DAILY, Outcome.NO, 1, 1, 1, 1, 0, "", ""⟩

def c8RawPredOrder : RawPredOrder :=
  ⟨some 6, some "BUY", some "2", none, none, none, some "YES", some 1, some 1, some 1,
    some 0, none, some 0, none, some ""⟩

def c8PredOrder : PredOrder :=
  ⟨6, PredOrderType.BUY, "2", "DDR5-DAILY", "DDR5", "DAILY", Outcome.YES, 1, 1, 1, 0,
    none, 0, none, ""⟩

def c8RawPredState : RawPredictionState :=
  ⟨some 0, some 9, some 1, some [c8RawPredPosition], some [c8RawPredOrder]⟩

set_option maxRecDepth 8000 in
/-- C8 counterexample: `sanitizeSyntheticState` does not recompute
`nextPositionId` as `max(existing id) + 1`.  For a stored book holding one
position with id 2 (so `max(existing) + 1 = 3`) but a saved counter of 7, the
sanitizer keeps 7 (`Math.max(Number(raw.nextPositionId) || 1, maxId + 1)`). -/
theorem C8_next_id_counterexample :
    (sanitizeSyntheticState (some c8RawSynState)).openPositions.foldl
        (fun m p => max m (jsOrQ p.id 0)) 0 + 1 = 3 ∧
    (sanitizeSyntheticState (some c8RawSynState)).nextPositionId = 7 := by
  constructor
  · decide
  · decide

set_option maxRecDepth 8000 in
/-- C8: every loaded account is re-sanitized before use: the cash balance is
coerced to a finite number, clamped to `≥ 0` and rounded to 2 decimals; a lot is
dropped exactly when its ticker/market id is unknown or its units/contracts,
entry price or invested amount is missing (non-finite) or non-positive; order
histories are capped at 500 entries; the id counters are recomputed as
`max(stored value or 1, max(existing id) + 1)`, hence strictly above every
surviving id and never below the stored counter; and `portfolioPnL` is rebuilt
from the open books at live marks rather than trusted from storage. -/
theorem C8_sanitize_on_load :
    (∀ (prices : Ticker → ℚ) (cd : ChancesData) (ptb : Ticker → ℚ)
      (raw : Option RawAccount), 0 ≤ (ensureAccountShape prices cd ptb raw).cashBalance) ∧
    (∀ (prices : Ticker → ℚ) (cd : ChancesData) (ptb : Ticker → ℚ) (a : RawAccount),
      (ensureAccountShape prices cd ptb (some a)).cashBalance =
        toFixed 2 (max 0 (toFiniteNumber a.cashBalance 1000))) ∧
    (∀ p : RawSynPosition, sanitizeSynPosition p = none ↔
      tickerOfString (jsOrStr p.ticker "") = none ∨ p.units = none ∨
      p.avgEntryPrice = none ∨ p.investedAmount = none ∨
      (∃ u av iv, p.units = some u ∧ p.avgEntryPrice = some av ∧
        p.investedAmount = some iv ∧ (u ≤ 0 ∨ av ≤ 0 ∨ iv ≤ 0))) ∧
    (∀ (ptb : Ticker → ℚ) (p : RawPredPosition), sanitizePredPosition ptb p = none ↔
      marketOfString (jsOrStr p.marketId "") = none ∨ p.contracts = none ∨
      p.avgEntryPrice = none ∨ p.investedAmount = none ∨
      (∃ c av iv, p.contracts = some c ∧ p.avgEntryPrice = some av ∧
        p.investedAmount = some iv ∧ (c ≤ 0 ∨ av ≤ 0 ∨ iv ≤ 0))) ∧
    (∀ raw : Option RawSyntheticState,
      (sanitizeSyntheticState raw).orderHistory.length ≤ 500) ∧
    (∀ (ptb : Ticker → ℚ) (raw : Option RawPredictionState),
      (sanitizePredictionState ptb raw).orderHistory.length ≤ 500) ∧
    (∀ r : RawSyntheticState,
      (∀ p ∈ (sanitizeSyntheticState (some r)).openPositions,
        p.id < (sanitizeSyntheticState (some r)).nextPositionId) ∧
      (∀ o ∈ (sanitizeSyntheticState (some r)).orderHistory,
        o.id < (sanitizeSyntheticState (some r)).nextOrderId) ∧
      jsNumOr r.nextPositionId 1 ≤ (sanitizeSyntheticState (some r)).nextPositionId ∧
      jsNumOr r.nextOrderId 1 ≤ (sanitizeSyntheticState (some r)).nextOrderId) ∧
    (∀ (ptb : Ticker → ℚ) (r : RawPredictionState),
      (∀ p ∈ (sanitizePredictionState ptb (some r)).openPositions,
        p.id < (sanitizePredictionState ptb (some r)).nextPositionId) ∧
      (∀ o ∈ (sanitizePredictionState ptb (some r)).orderHistory,
        o.id < (sanitizePredictionState ptb (some r)).nextOrderId) ∧
      jsNumOr r.nextPositionId 1 ≤ (sanitizePredictionState ptb (some r)).nextPositionId ∧
      jsNumOr r.nextOrderId 1 ≤ (sanitizePredictionState ptb (some r)).nextOrderId) ∧
    (∀ (prices : Ticker → ℚ) (cd : ChancesData) (ptb : Ticker → ℚ) (a : RawAccount),
      (ensureAccountShape prices cd ptb (some a)).portfolioPnL =
        toFixed 2
          ((ensureAccountShape prices cd ptb (some a)).prediction.openPositions.foldl
            (fun sum p => sum +
              (p.contracts * getCurrentContractPrice cd p.marketId p.outcome
                - p.investedAmount)) 0 +
           (ensureAccountShape prices cd ptb (some a)).synthetic.openPositions.foldl
            (fun sum p => sum +
              (p.units * getSyntheticQuote prices p.ticker - p.investedAmount)) 0)) := by
  refine ⟨?_, ?_, sanitizeSynPosition_eq_none_iff, sanitizePredPosition_eq_none_iff,
    ?_, ?_, ?_, ?_, ?_⟩
  · intro prices cd ptb raw
    cases raw with
    | none =>
      show (0 : ℚ) ≤ (1000 : ℚ)
      norm_num
    | some a =>
      have h : (ensureAccountShape prices cd ptb (some a)).cashBalance =
          toFixed 2 (max 0 (toFiniteNumber a.cashBalance 1000)) := rfl
      rw [h]
      exact toFixed_nonneg (le_max_left 0 _)
  · intro prices cd ptb a
    rfl
  · intro raw
    cases raw with
    | none =>
      show ([] : List SynOrder).length ≤ 500
      norm_num
    | some r => exact sliceLast_length_le 500 _
  · intro ptb raw
    cases raw with
    | none =>
      show ([] : List PredOrder).length ≤ 500
      norm_num
    | some r => exact sliceLast_length_le 500 _
  · intro r
    refine ⟨?_, ?_, le_max_left _ _, le_max_left _ _⟩
    · intro p hp
      exact lt_of_le_of_lt
        ((le_jsOrQ_zero p.id).trans
          (foldl_max_le_mem (fun q => jsOrQ q.id 0) _ 0 p hp))
        (lt_of_lt_of_le (lt_add_one _) (le_max_right _ _))
    · intro o ho
      have ho' := (sliceLast_sublist 500 _).subset ho
      exact lt_of_le_of_lt
        ((le_jsOrQ_zero o.id).trans
          (foldl_max_le_mem (fun q => jsOrQ q.id 0) _ 0 o ho'))
        (lt_of_lt_of_le (lt_add_one _) (le_max_right _ _))
  · intro ptb r
    refine ⟨?_, ?_, le_max_left _ _, le_max_left _ _⟩
    · intro p hp
      exact lt_of_le_of_lt
        ((le_jsOrQ_zero p.id).trans
          (foldl_max_le_mem (fun q => jsOrQ q.id 0) _ 0 p hp))
        (lt_of_lt_of_le (lt_add_one _) (le_max_right _ _))
    · intro o ho
      have ho' := (sliceLast_sublist 500 _).subset ho
      exact lt_of_le_of_lt
        ((le_jsOrQ_zero o.id).trans
          (foldl_max_le_mem (fun q => jsOrQ q.id 0) _ 0 o ho'))
        (lt_of_lt_of_le (lt_add_one _) (le_max_right _ _))
  · intro prices cd ptb a
    rfl

set_option maxRecDepth 8000 in
theorem C8_sanitize_on_load_witness :
    c8SynPosition.id < (sanitizeSyntheticState (some c8RawSynState)).nextPositionId ∧
    c8SynOrder.id < (sanitizeSyntheticState (some c8RawSynState)).nextOrderId ∧
    jsNumOr c8RawSynState.nextPositionId 1 ≤
      (sanitizeSyntheticState (some c8RawSynState)).nextPositionId ∧
    c8PredPosition.id < (sanitizePredictionState examplePrices
      (some c8RawPredState)).nextPositionId ∧
    c8PredOrder.id < (sanitizePredictionState examplePrices
      (some c8RawPredState)).nextOrderId ∧
    0 ≤ (ensureAccountShape examplePrices exampleChances examplePrices none).cashBalance :=
  ⟨(C8_sanitize_on_load.2.2.2.2.2.2.1 c8RawSynState).1 c8SynPosition (by decide),
   (C8_sanitize_on_load.2.2.2.2.2.2.1 c8RawSynState).2.1 c8SynOrder (by decide),
   (C8_sanitize_on_load.2.2.2.2.2.2.1 c8RawSynState).2.2.1,
   (C8_sanitize_on_load.2.2.2.2.2.2.2.1 examplePrices c8RawPredState).1
     c8PredPosition (by decide),
   (C8_sanitize_on_load.2.2.2.2.2.2.2.1 examplePrices c8RawPredState).2.1
     c8PredOrder (by decide),
   C8_sanitize_on_load.1 examplePrices exampleChances examplePrices none⟩

theorem mem_of_getLast?_eq {l : List α} {a : α} (h : l.getLast? = some a) : a ∈ l := by
  cases l with
  | nil => simp at h
  | cons x xs =>
    have hg := List.getLast?_eq_getLast (x :: xs) (by simp)
    rw [hg, Option.some.injEq] at h
    exact h ▸ List.getLast_mem (by simp)

theorem BASE_pos (t : Ticker) : 0 < BASE_TICKER_PRICES t := by
  cases t <;> norm_num [BASE_TICKER_PRICES]

set_option maxRecDepth 8000 in
theorem base_round_lo (t : Ticker) :
    BASE_TICKER_PRICES t * (95 / 100) ≤ toFixed 3 (BASE_TICKER_PRICES t * (95 / 100)) := by
  cases t <;> decide

set_option maxRecDepth 8000 in
theorem base_round_hi (t : Ticker) :
    toFixed 3 (BASE_TICKER_PRICES t * (105 / 100)) ≤ BASE_TICKER_PRICES t * (105 / 100) := by
  cases t <;> decide

theorem baseOK_toFixed {b v : ℚ}
    (hlo : b * (95 / 100) ≤ toFixed 3 (b * (95 / 100)))
    (hhi : toFixed 3 (b * (105 / 100)) ≤ b * (105 / 100))
    (hv : priceBaseOK b v) : priceBaseOK b (toFixed 3 v) :=
  ⟨hlo.trans (toFixed_le_toFixed hv.1), (toFixed_le_toFixed hv.2).trans hhi⟩

theorem clamp_into_base_step {b prev w : ℚ} (hb : 0 ≤ b)
    (hc1 : b * (95 / 100) ≤ prev) (hc2 : prev ≤ b * (105 / 100))
    (hw1 : prev * (95 / 100) ≤ w) (hw2 : w ≤ prev * (105 / 100)) :
    prev * (95 / 100) ≤ clamp w (b * (95 / 100)) (b * (105 / 100)) ∧
    clamp w (b * (95 / 100)) (b * (105 / 100)) ≤ prev * (105 / 100) := by
  have hp : (0 : ℚ) ≤ prev := by linarith [mul_nonneg hb (by norm_num : (0:ℚ) ≤ 95 / 100)]
  unfold clamp
  constructor
  · rcases le_total w (b * (105 / 100)) with h | h
    · rw [min_eq_right h]
      exact le_max_of_le_right hw1
    · rw [min_eq_left h]
      have : b * (95 / 100) ≤ b * (105 / 100) := by linarith
      rw [max_eq_right this]
      linarith
  · refine max_le (by linarith) ?_
    exact (min_le_right _ _).trans hw2

theorem stepOK_of_exact {prev v : ℚ} (h1 : prev * (95 / 100) ≤ v)
    (h2 : v ≤ prev * (105 / 100)) : priceStepOK prev (toFixed 3 v) := by
  have ha := @toFixed_le_add_half 3 v
  have hc := @sub_half_le_toFixed 3 v
  have he : (1 : ℚ) / (2 * (10 : ℚ) ^ 3) = 1 / 2000 := by norm_num
  rw [he] at ha hc
  exact ⟨by linarith, by linarith⟩

theorem stepOK_of_round {prev cur : ℚ} (h1 : prev * (95 / 100) ≤ cur)
    (h2 : cur ≤ prev * (105 / 100)) : priceStepOK (toFixed 3 prev) (toFixed 3 cur) := by
  have ha := @toFixed_le_add_half 3 prev
  have hb := @sub_half_le_toFixed 3 prev
  have hc := @toFixed_le_add_half 3 cur
  have hd := @sub_half_le_toFixed 3 cur
  have he : (1 : ℚ) / (2 * (10 : ℚ) ^ 3) = 1 / 2000 := by norm_num
  rw [he] at ha hb hc hd
  exact ⟨by linarith, by linarith⟩

theorem seedEntries_spec (shocks : ℕ → ℚ) (b : ℚ) (src : String) (hb : 0 ≤ b)
    (hlo : b * (95 / 100) ≤ toFixed 3 (b * (95 / 100)))
    (hhi : toFixed 3 (b * (105 / 100)) ≤ b * (105 / 100)) :
    ∀ (n i : ℕ) (current : ℚ), priceBaseOK b current →
      (∀ e ∈ seedEntries shocks b src i n current, priceBaseOK b e.price) ∧
      List.Chain' (fun a c => priceStepOK a.price c.price)
        (seedEntries shocks b src i n current) ∧
      (∀ c ∈ (seedEntries shocks b src i n current).head?,
        priceStepOK (toFixed 3 current) c.price) ∧
      (seedEntries shocks b src i n current).length = n := by
  intro n
  induction n with
  | zero =>
    intro i current hcur
    refine ⟨fun e he => absurd he (List.not_mem_nil e), List.chain'_nil,
      fun c hc => absurd hc ?_, rfl⟩
    show c ∉ (([] : List PriceEntry)).head?
    simp
  | succ n ih =>
    intro i current hcur
    have hcur0 : (0 : ℚ) ≤ current := by
      have h95 : (0 : ℚ) ≤ b * (95 / 100) :=
        mul_nonneg hb (by norm_num)
      linarith [hcur.1]
    set pct := clamp (shocks i + ((b - current) / b) * (25 / 100)) (-(5 / 100)) (5 / 100)
      with hpct
    set next := clamp (current * (1 + pct)) (b * (95 / 100)) (b * (105 / 100)) with hnext
    have hp1 : -(5 / 100 : ℚ) ≤ pct := le_clamp _ _ _
    have hp2 : pct ≤ 5 / 100 := clamp_le (by norm_num)
    have hw1 : current * (95 / 100) ≤ current * (1 + pct) := by nlinarith
    have hw2 : current * (1 + pct) ≤ current * (105 / 100) := by nlinarith
    have hstep := clamp_into_base_step hb hcur.1 hcur.2 hw1 hw2
    rw [← hnext] at hstep
    have hnb : priceBaseOK b next := ⟨le_clamp _ _ _, clamp_le (by linarith [hcur.1, hcur.2])⟩
    have heq : seedEntries shocks b src i (n + 1) current =
        ⟨toFixed 3 next, "", src⟩ :: seedEntries shocks b src (i + 1) n next := rfl
    obtain ⟨ih1, ih2, ih3, ih4⟩ := ih (i + 1) next hnb
    rw [heq]
    refine ⟨?_, ?_, ?_, ?_⟩
    · intro e he
      rcases List.mem_cons.mp he with rfl | he'
      · exact baseOK_toFixed hlo hhi hnb
      · exact ih1 e he'
    · exact List.chain'_cons'.mpr ⟨fun y hy => ih3 y hy, ih2⟩
    · intro c hc
      rw [List.head?_cons, Option.mem_some_iff] at hc
      subst hc
      exact stepOK_of_round hstep.1 hstep.2
    · simp [ih4]

theorem cleanPriceEntries_spec (b : ℚ) (hb : 0 ≤ b)
    (hlo : b * (95 / 100) ≤ toFixed 3 (b * (95 / 100)))
    (hhi : toFixed 3 (b * (105 / 100)) ≤ b * (105 / 100)) :
    ∀ (l : List RawPriceEntry) (prev : ℚ), priceBaseOK b prev →
      (∀ e ∈ cleanPriceEntries b l prev, priceBaseOK b e.price) ∧
      List.Chain' (fun a c => priceStepOK a.price c.price) (cleanPriceEntries b l prev) ∧
      (∀ c ∈ (cleanPriceEntries b l prev).head?, priceStepOK prev c.price) ∧
      (cleanPriceEntries b l prev).length ≤ l.length := by
  intro l
  induction l with
  | nil =>
    intro prev hprev
    refine ⟨fun e he => absurd he (List.not_mem_nil e), List.chain'_nil,
      fun c hc => absurd hc ?_, by simp [cleanPriceEntries]⟩
    show c ∉ (([] : List PriceEntry)).head?
    simp
  | cons e rest ih =>
    intro prev hprev
    cases hep : e.price with
    | none =>
      have heq : cleanPriceEntries b (e :: rest) prev = cleanPriceEntries b rest prev := by
        conv_lhs => unfold cleanPriceEntries
        simp only [hep]
      rw [heq]
      obtain ⟨i1, i2, i3, i4⟩ := ih prev hprev
      exact ⟨i1, i2, i3, i4.trans (by simp)⟩
    | some raw =>
      have hprev0 : (0 : ℚ) ≤ prev := by
        have h95 : (0 : ℚ) ≤ b * (95 / 100) := mul_nonneg hb (by norm_num)
        linarith [hprev.1]
      set stepB := clamp raw (prev * (95 / 100)) (prev * (105 / 100)) with hsB
      set baseB := clamp stepB (b * (95 / 100)) (b * (105 / 100)) with hbB
      set norm := toFixed 3 baseB with hnorm
      have hw1 : prev * (95 / 100) ≤ stepB := le_clamp _ _ _
      have hw2 : stepB ≤ prev * (105 / 100) := clamp_le (by linarith)
      have hbb := clamp_into_base_step hb hprev.1 hprev.2 hw1 hw2
      rw [← hbB] at hbb
      have hnbB : priceBaseOK b baseB := ⟨le_clamp _ _ _, clamp_le (by linarith [hprev.1, hprev.2])⟩
      have hnormB : priceBaseOK b norm := by
        rw [hnorm]
        exact baseOK_toFixed hlo hhi hnbB
      have hstep : priceStepOK prev norm := by
        rw [hnorm]
        exact stepOK_of_exact hbb.1 hbb.2
      have heq : cleanPriceEntries b (e :: rest) prev =
          ⟨norm, jsOrStr e.timestamp "", jsOrStr e.source "normalized"⟩ ::
            cleanPriceEntries b rest norm := by
        conv_lhs => unfold cleanPriceEntries
        simp only [hep]
      obtain ⟨i1, i2, i3, i4⟩ := ih norm hnormB
      rw [heq]
      refine ⟨?_, ?_, ?_, ?_⟩
      · intro x hx
        rcases List.mem_cons.mp hx with rfl | hx'
        · exact hnormB
        · exact i1 x hx'
      · exact List.chain'_cons'.mpr ⟨fun y hy => i3 y hy, i2⟩
      · intro c hc
        rw [List.head?_cons, Option.mem_some_iff] at hc
        subst hc
        exact hstep
      · simp only [List.length_cons]
        exact Nat.succ_le_succ i4

theorem tickerHistory_core_spec (shocks : ℕ → ℚ) (t : Ticker) (src : List RawPriceEntry)
    (hsrc : src.length ≤ 100) :
    (∀ e ∈ (if (cleanPriceEntries (BASE_TICKER_PRICES t) src
          (BASE_TICKER_PRICES t)).length < 2
        then generateSeedHistory shocks (BASE_TICKER_PRICES t)
          (sanitizeTickerHistory.tickerName t)
        else cleanPriceEntries (BASE_TICKER_PRICES t) src (BASE_TICKER_PRICES t)),
      priceBaseOK (BASE_TICKER_PRICES t) e.price) ∧
    List.Chain' (fun a c => priceStepOK a.price c.price)
      (if (cleanPriceEntries (BASE_TICKER_PRICES t) src (BASE_TICKER_PRICES t)).length < 2
        then generateSeedHistory shocks (BASE_TICKER_PRICES t)
          (sanitizeTickerHistory.tickerName t)
        else cleanPriceEntries (BASE_TICKER_PRICES t) src (BASE_TICKER_PRICES t)) ∧
    (if (cleanPriceEntries (BASE_TICKER_PRICES t) src (BASE_TICKER_PRICES t)).length < 2
        then generateSeedHistory shocks (BASE_TICKER_PRICES t)
          (sanitizeTickerHistory.tickerName t)
        else cleanPriceEntries (BASE_TICKER_PRICES t) src
          (BASE_TICKER_PRICES t)).length ≤ 100 ∧
    (if (cleanPriceEntries (BASE_TICKER_PRICES t) src (BASE_TICKER_PRICES t)).length < 2
        then generateSeedHistory shocks (BASE_TICKER_PRICES t)
          (sanitizeTickerHistory.tickerName t)
        else cleanPriceEntries (BASE_TICKER_PRICES t) src (BASE_TICKER_PRICES t)) ≠ [] := by
  have hb := (BASE_pos t).le
  have hlo := base_round_lo t
  have hhi := base_round_hi t
  have hbb : priceBaseOK (BASE_TICKER_PRICES t) (BASE_TICKER_PRICES t) :=
    ⟨by linarith, by linarith⟩
  obtain ⟨c1, c2, c3, c4⟩ := cleanPriceEntries_spec (BASE_TICKER_PRICES t) hb hlo hhi
    src (BASE_TICKER_PRICES t) hbb
  obtain ⟨s1, s2, s3, s4⟩ := seedEntries_spec shocks (BASE_TICKER_PRICES t)
    ("seed-" ++ sanitizeTickerHistory.tickerName t) hb hlo hhi 50 0 (BASE_TICKER_PRICES t) hbb
  by_cases hlt : (cleanPriceEntries (BASE_TICKER_PRICES t) src
      (BASE_TICKER_PRICES t)).length < 2
  · rw [if_pos hlt]
    refine ⟨s1, s2, ?_, ?_⟩
    · rw [show (generateSeedHistory shocks (BASE_TICKER_PRICES t)
          (sanitizeTickerHistory.tickerName t)).length =
          (seedEntries shocks (BASE_TICKER_PRICES t)
            ("seed-" ++ sanitizeTickerHistory.tickerName t) 0 50
            (BASE_TICKER_PRICES t)).length from rfl, s4]
      norm_num
    · intro hnil
      rw [show generateSeedHistory shocks (BASE_TICKER_PRICES t)
          (sanitizeTickerHistory.tickerName t) =
          seedEntries shocks (BASE_TICKER_PRICES t)
            ("seed-" ++ sanitizeTickerHistory.tickerName t) 0 50
            (BASE_TICKER_PRICES t) from rfl] at hnil
      rw [hnil] at s4
      simp at s4
  · rw [if_neg hlt]
    refine ⟨c1, c2, c4.trans hsrc, ?_⟩
    intro hnil
    rw [hnil] at hlt
    simp at hlt

theorem sanitizeTickerHistory_spec (shocks : ℕ → ℚ) (t : Ticker)
    (raw : Option (List RawPriceEntry)) :
    (∀ e ∈ sanitizeTickerHistory shocks t raw, priceBaseOK (BASE_TICKER_PRICES t) e.price) ∧
    List.Chain' (fun a c => priceStepOK a.price c.price) (sanitizeTickerHistory shocks t raw) ∧
    (sanitizeTickerHistory shocks t raw).length ≤ 100 ∧
    sanitizeTickerHistory shocks t raw ≠ [] := by
  cases raw with
  | none => exact tickerHistory_core_spec shocks t [] (by simp)
  | some l => exact tickerHistory_core_spec shocks t (sliceLast 100 l) (sliceLast_length_le 100 l)

theorem sanitizePricesData_inv (shocks : Ticker → ℕ → ℚ) (raw : Option RawPricesData) :
    priceHistoryInv (sanitizePricesData shocks raw) := by
  have main : ∀ (t : Ticker) (r : Option (List RawPriceEntry)),
      (∀ e ∈ sanitizeTickerHistory (shocks t) t r,
        priceBaseOK (BASE_TICKER_PRICES t) e.price) ∧
      List.Chain' (fun a c => priceStepOK a.price c.price)
        (sanitizeTickerHistory (shocks t) t r) ∧
      (sanitizeTickerHistory (shocks t) t r).length ≤ 100 ∧
      (sanitizeTickerHistory (shocks t) t r).getLast?.map PriceEntry.price =
        some ((sanitizeTickerHistory (shocks t) t r).getLastD ⟨0, "", ""⟩).price := by
    intro t r
    obtain ⟨h1, h2, h3, h4⟩ := sanitizeTickerHistory_spec (shocks t) t r
    refine ⟨h1, h2, h3, ?_⟩
    cases hL : (sanitizeTickerHistory (shocks t) t r).getLast? with
    | none => exact absurd (List.getLast?_eq_none_iff.mp hL) h4
    | some e =>
      rw [List.getLastD_eq_getLast?, hL]
      rfl
  intro t
  cases raw with
  | none => exact main t none
  | some r => exact main t (r.priceHistory t)

theorem inv_components_append (b : ℚ) (H : List PriceEntry) (E : PriceEntry) (cur : ℚ)
    (hbase : ∀ x ∈ H, priceBaseOK b x.price)
    (hchain : List.Chain' (fun a c => priceStepOK a.price c.price) H)
    (hlast : H.getLast?.map PriceEntry.price = some cur)
    (heb : priceBaseOK b E.price)
    (hstep : priceStepOK cur E.price) :
    (∀ x ∈ sliceLast 100 (H ++ [E]), priceBaseOK b x.price) ∧
    List.Chain' (fun a c => priceStepOK a.price c.price) (sliceLast 100 (H ++ [E])) ∧
    (sliceLast 100 (H ++ [E])).length ≤ 100 ∧
    (sliceLast 100 (H ++ [E])).getLast?.map PriceEntry.price = some E.price := by
  have hchain2 : List.Chain' (fun a c => priceStepOK a.price c.price) (H ++ [E]) := by
    rw [List.chain'_append]
    refine ⟨hchain, List.chain'_singleton E, ?_⟩
    intro x hx y hy
    rw [List.head?_cons, Option.mem_some_iff] at hy
    subst hy
    rw [Option.mem_def] at hx
    rw [hx, Option.map_some'] at hlast
    have hxp : x.price = cur := Option.some.inj hlast
    rw [hxp]
    exact hstep
  refine ⟨?_, hchain2.drop _, sliceLast_length_le 100 _, ?_⟩
  · intro x hx
    have hx' := (sliceLast_sublist 100 _).subset hx
    rcases List.mem_append.mp hx' with hmem | hmem
    · exact hbase x hmem
    · rw [List.mem_singleton] at hmem
      subst hmem
      exact heb
  · rw [sliceLast_concat_getLast? (by norm_num) H E]
    rfl

theorem addPriceEntry_preserves_inv (coin : Bool) (mag : MarketId → ℚ) (t : Ticker)
    (incoming : ℚ) (src ts : String) (pd : PricesData) (cd : ChancesData)
    (h : priceHistoryInv pd) :
    priceHistoryInv (addPriceEntry coin mag t incoming src ts pd cd).2.1 := by
  intro t'
  obtain ⟨hbase, hchain, hlen, hlast⟩ := h t'
  by_cases ht' : t' = t
  · subst ht'
    have hb := (BASE_pos t').le
    cases hL1 : (pd.priceHistory t').getLast? with
    | none =>
      rw [hL1] at hlast
      simp at hlast
    | some lastE =>
      rw [hL1, Option.map_some'] at hlast
      have hpe : lastE.price = pd.currentPrices t' := Option.some.inj hlast
      have hmem := mem_of_getLast?_eq hL1
      have hprevBase : priceBaseOK (BASE_TICKER_PRICES t') (pd.currentPrices t') :=
        hpe ▸ hbase lastE hmem
      have hprevPos : 0 < pd.currentPrices t' := by
        have h95 : (0 : ℚ) < BASE_TICKER_PRICES t' * (95 / 100) :=
          mul_pos (BASE_pos t') (by norm_num)
        linarith [hprevBase.1]
      have hEp : (addPriceEntry coin mag t' incoming src ts pd cd).1.price =
          toFixed 3 (clamp (clamp incoming
              (jsOrQ (pd.currentPrices t') (BASE_TICKER_PRICES t') * (95 / 100))
              (jsOrQ (pd.currentPrices t') (BASE_TICKER_PRICES t') * (105 / 100)))
            (BASE_TICKER_PRICES t' * (95 / 100)) (BASE_TICKER_PRICES t' * (105 / 100))) := rfl
      rw [jsOrQ_of_ne (ne_of_gt hprevPos)] at hEp
      have hw1 : pd.currentPrices t' * (95 / 100) ≤ clamp incoming
          (pd.currentPrices t' * (95 / 100)) (pd.currentPrices t' * (105 / 100)) :=
        le_clamp _ _ _
      have hw2 : clamp incoming (pd.currentPrices t' * (95 / 100))
          (pd.currentPrices t' * (105 / 100)) ≤ pd.currentPrices t' * (105 / 100) :=
        clamp_le (by linarith [hprevPos.le])
      have hbb := clamp_into_base_step hb hprevBase.1 hprevBase.2 hw1 hw2
      have heb : priceBaseOK (BASE_TICKER_PRICES t')
          ((addPriceEntry coin mag t' incoming src ts pd cd).1.price) := by
        rw [hEp]
        exact baseOK_toFixed (base_round_lo t') (base_round_hi t')
          ⟨le_clamp _ _ _, clamp_le (by linarith [hb])⟩
      have hstep : priceStepOK (pd.currentPrices t')
          ((addPriceEntry coin mag t' incoming src ts pd cd).1.price) := by
        rw [hEp]
        exact stepOK_of_exact hbb.1 hbb.2
      have hH : (addPriceEntry coin mag t' incoming src ts pd cd).2.1.priceHistory t' =
          sliceLast 100 (pd.priceHistory t' ++
            [(addPriceEntry coin mag t' incoming src ts pd cd).1]) := if_pos rfl
      have hC : (addPriceEntry coin mag t' incoming src ts pd cd).2.1.currentPrices t' =
          (addPriceEntry coin mag t' incoming src ts pd cd).1.price := if_pos rfl
      obtain ⟨a1, a2, a3, a4⟩ := inv_components_append (BASE_TICKER_PRICES t')
        (pd.priceHistory t') ((addPriceEntry coin mag t' incoming src ts pd cd).1)
        (pd.currentPrices t') hbase hchain
        (by rw [hL1, Option.map_some', hpe]) heb hstep
      refine ⟨?_, ?_, ?_, ?_⟩
      · rw [hH]; exact a1
      · rw [hH]; exact a2
      · rw [hH]; exact a3
      · rw [hH, hC]; exact a4
  · have hH : (addPriceEntry coin mag t incoming src ts pd cd).2.1.priceHistory t' =
        pd.priceHistory t' := if_neg ht'
    have hC : (addPriceEntry coin mag t incoming src ts pd cd).2.1.currentPrices t' =
        pd.currentPrices t' := if_neg ht'
    refine ⟨?_, ?_, ?_, ?_⟩
    · rw [hH]; exact hbase
    · rw [hH]; exact hchain
    · rw [hH]; exact hlen
    · rw [hH, hC]; exact hlast

/-- A minimal concrete price ledger: one seeded entry per ticker at the base
price, in sync with the live prices. -/
def c2Pd : PricesData :=
  { currentPrices := BASE_TICKER_PRICES
    priceHistory := fun t => [⟨BASE_TICKER_PRICES t, "", ""⟩] }

theorem c2Pd_inv : priceHistoryInv c2Pd := by
  intro t
  refine ⟨?_, List.chain'_singleton _, ?_, rfl⟩
  · intro e he
    simp only [c2Pd, List.mem_singleton] at he
    subst he
    cases t <;> exact ⟨by decide, by decide⟩
  · cases t <;> decide

set_option maxRecDepth 8000 in
/-- C2 counterexample: the step band `0.95 × prev ≤ p` does not hold exactly for
adjacent stored entries.  Starting from the base price 38.067, recording 39.959
and then 0 stores the adjacent entries 39.959 and 37.961, and
`37.961 < 0.95 × 39.959 = 37.96105`: the double clamp is computed against the
unrounded value, and the 3-decimal rounding then dips below the band. -/
theorem C2_step_band_counterexample :
    ((addPriceEntry false (fun _ => 2) Ticker.DDR5 0 "manual" ""
        (addPriceEntry false (fun _ => 2) Ticker.DDR5 (39959 / 1000) "manual" "" c2Pd
            exampleChances).2.1
        (addPriceEntry false (fun _ => 2) Ticker.DDR5 (39959 / 1000) "manual" "" c2Pd
            exampleChances).2.2).2.1.priceHistory Ticker.DDR5 =
      [⟨38067 / 1000, "", ""⟩, ⟨39959 / 1000, "", "manual"⟩, ⟨37961 / 1000, "", "manual"⟩]) ∧
    (37961 / 1000 : ℚ) < (39959 / 1000) * (95 / 100) := by
  constructor
  · decide
  · decide

set_option maxRecDepth 8000 in
/-- C2: for every known ticker, after any price recording and after
sanitize-on-load, every stored entry lies in the exact base band
`0.95 × base ≤ p ≤ 1.05 × base`; adjacent entries satisfy the step band up to
the 3-decimal rounding slack `0.0015` (the step clamp is applied before the base
clamp, against the unrounded previous value); the history never exceeds 100
entries and the live price equals the last stored entry; a recording for an
unknown ticker returns `null` with no mutation. -/
theorem C2_price_bounds_and_rejection :
    (∀ (coin : Bool) (mag : MarketId → ℚ) (t : Ticker) (incoming : ℚ) (src ts : String)
      (pd : PricesData) (cd : ChancesData), priceHistoryInv pd →
      priceHistoryInv (addPriceEntry coin mag t incoming src ts pd cd).2.1) ∧
    (∀ (shocks : Ticker → ℕ → ℚ) (raw : Option RawPricesData),
      priceHistoryInv (sanitizePricesData shocks raw)) ∧
    (∀ (coin : Bool) (mag : MarketId → ℚ) (s : String) (incoming : ℚ) (src ts : String)
      (pd : PricesData) (cd : ChancesData), tickerOfString s = none →
      addPriceEntryStr coin mag s incoming src ts pd cd = (none, pd, cd)) := by
  refine ⟨addPriceEntry_preserves_inv, sanitizePricesData_inv, ?_⟩
  intro coin mag s incoming src ts pd cd hs
  unfold addPriceEntryStr
  simp only [hs]

set_option maxRecDepth 8000 in
theorem C2_price_bounds_and_rejection_witness :
    priceHistoryInv c2Pd ∧
    priceHistoryInv (addPriceEntry false (fun _ => 2) Ticker.DDR5 40 "manual" "" c2Pd
      exampleChances).2.1 ∧
    priceHistoryInv (sanitizePricesData (fun _ _ => 0) none) ∧
    tickerOfString "GPU" = none ∧
    addPriceEntryStr false (fun _ => 2) "GPU" 1 "manual" "" c2Pd exampleChances =
      (none, c2Pd, exampleChances) :=
  ⟨c2Pd_inv,
   C2_price_bounds_and_rejection.1 false (fun _ => 2) Ticker.DDR5 40 "manual" "" c2Pd
     exampleChances c2Pd_inv,
   C2_price_bounds_and_rejection.2.1 (fun _ _ => 0) none,
   by decide,
   C2_price_bounds_and_rejection.2.2 false (fun _ => 2) "GPU" 1 "manual" "" c2Pd
     exampleChances (by decide)⟩

theorem sessionStep_slot (r : StepRand) (st : EngineState) :
    (sessionStep r st).session.lastSessionSlotIndex =
      (st.session.lastSessionSlotIndex + 1) % 3 := by
  simp only [sessionStep]
  split <;> rfl

theorem sessionStep_skip (r : StepRand) (st : EngineState) :
    (sessionStep r st).session.skipSessionCount = st.session.skipSessionCount + 1 := by
  simp only [sessionStep]
  split <;> rfl

theorem sessionStep_prices (r : StepRand) (st : EngineState) :
    (sessionStep r st).prices = (tickAllTickers r st.prices st.chances).1 := by
  simp only [sessionStep]
  split <;> rfl

theorem sessionStep_accounts (r : StepRand) (st : EngineState) :
    (sessionStep r st).accounts =
      settleDuePredictionPositions (st.session.skipSessionCount + 1)
        (tickAllTickers r st.prices st.chances).1.currentPrices
        (tickAllTickers r st.prices st.chances).2 st.accounts := by
  simp only [sessionStep]
  split <;> rfl

theorem sessionStep_reset_branch (r : StepRand) (st : EngineState)
    (h : (st.session.lastSessionSlotIndex + 1) % 3 = 0) :
    (sessionStep r st).session.priceToBeat =
      (fun t => toFixed 3 ((tickAllTickers r st.prices st.chances).1.currentPrices t)) ∧
    (sessionStep r st).chances =
      resetDailyChances (tickAllTickers r st.prices st.chances).2 := by
  simp only [sessionStep]
  rw [if_pos h]
  exact ⟨rfl, rfl⟩

theorem sessionStep_else_branch (r : StepRand) (st : EngineState)
    (h : (st.session.lastSessionSlotIndex + 1) % 3 ≠ 0) :
    (sessionStep r st).session.priceToBeat = st.session.priceToBeat ∧
    (sessionStep r st).chances =
      truncateDailyChances ((st.session.lastSessionSlotIndex + 1) % 3)
        (tickAllTickers r st.prices st.chances).2 := by
  simp only [sessionStep]
  rw [if_neg h]
  exact ⟨rfl, rfl⟩

theorem resetDaily_values (cd : ChancesData) :
    ∀ m ∈ dailyMarketIds, (resetDailyChances cd).currentChances m = 50 ∧
      (resetDailyChances cd).chanceHistory m = [50] := by
  intro m hm
  have hm2 : m = MarketId.m2 ∨ m = MarketId.m4 := by simpa [dailyMarketIds] using hm
  rcases hm2 with rfl | rfl <;>
    unfold resetDailyChances <;>
    simp [dailyMarketIds, List.foldl_cons, List.foldl_nil]

theorem stepN_skipCount (n : ℕ) :
    ∀ (rands : ℕ → StepRand) (st : EngineState),
      (stepN rands n st).session.skipSessionCount =
        st.session.skipSessionCount + (n : ℚ) := by
  induction n with
  | zero =>
    intro rands st
    simp [stepN]
  | succ n ih =>
    intro rands st
    have h1 : stepN rands (n + 1) st =
        stepN (fun i => rands (i + 1)) n (sessionStep (rands 0) st) := rfl
    rw [h1, ih, sessionStep_skip]
    push_cast
    ring

theorem stepN_slot (n : ℕ) :
    ∀ (rands : ℕ → StepRand) (st : EngineState),
      (stepN rands (n + 1) st).session.lastSessionSlotIndex =
        (st.session.lastSessionSlotIndex + n + 1) % 3 := by
  induction n with
  | zero =>
    intro rands st
    have h1 : stepN rands 1 st = sessionStep (rands 0) st := rfl
    rw [h1, sessionStep_slot]
  | succ n ih =>
    intro rands st
    have h1 : stepN rands (n + 1 + 1) st =
        stepN (fun i => rands (i + 1)) (n + 1) (sessionStep (rands 0) st) := rfl
    rw [h1, ih, sessionStep_slot]
    omega

theorem addPriceEntry_hist_own (coin : Bool) (mag : MarketId → ℚ) (t : Ticker) (x : ℚ)
    (src ts : String) (pd : PricesData) (cd : ChancesData) :
    (addPriceEntry coin mag t x src ts pd cd).2.1.priceHistory t =
      sliceLast 100 (pd.priceHistory t ++ [(addPriceEntry coin mag t x src ts pd cd).1]) :=
  if_pos rfl

theorem addPriceEntry_hist_other (coin : Bool) (mag : MarketId → ℚ) {t t' : Ticker} (x : ℚ)
    (src ts : String) (pd : PricesData) (cd : ChancesData) (h : t' ≠ t) :
    (addPriceEntry coin mag t x src ts pd cd).2.1.priceHistory t' = pd.priceHistory t' :=
  if_neg h

theorem tickAll_history (r : StepRand) (pd : PricesData) (cd : ChancesData) (t : Ticker) :
    ∃ e : PriceEntry, e.source = "session-skip" ∧
      (tickAllTickers r pd cd).1.priceHistory t =
        sliceLast 100 (pd.priceHistory t ++ [e]) := by
  cases t with
  | DDR5 =>
    refine ⟨(addPriceEntry (r.coin Ticker.DDR5) (r.mag Ticker.DDR5) Ticker.DDR5
      (getNextSessionPrice (r.shock Ticker.DDR5) Ticker.DDR5 pd) "session-skip" ""
      pd cd).1, rfl, ?_⟩
    simp only [tickAllTickers, tickerList, List.foldl_cons, List.foldl_nil]
    rw [addPriceEntry_hist_other _ _ _ _ _ _ _ (by decide : Ticker.DDR5 ≠ Ticker.DDR4),
      addPriceEntry_hist_own]
  | DDR4 =>
    refine ⟨(addPriceEntry (r.coin Ticker.DDR4) (r.mag Ticker.DDR4) Ticker.DDR4
      (getNextSessionPrice (r.shock Ticker.DDR4) Ticker.DDR4
        (addPriceEntry (r.coin Ticker.DDR5) (r.mag Ticker.DDR5) Ticker.DDR5
          (getNextSessionPrice (r.shock Ticker.DDR5) Ticker.DDR5 pd) "session-skip" ""
          pd cd).2.1)
      "session-skip" ""
      (addPriceEntry (r.coin Ticker.DDR5) (r.mag Ticker.DDR5) Ticker.DDR5
        (getNextSessionPrice (r.shock Ticker.DDR5) Ticker.DDR5 pd) "session-skip" ""
        pd cd).2.1
      (addPriceEntry (r.coin Ticker.DDR5) (r.mag Ticker.DDR5) Ticker.DDR5
        (getNextSessionPrice (r.shock Ticker.DDR5) Ticker.DDR5 pd) "session-skip" ""
        pd cd).2.2).1, rfl, ?_⟩
    simp only [tickAllTickers, tickerList, List.foldl_cons, List.foldl_nil]
    rw [addPriceEntry_hist_own,
      addPriceEntry_hist_other _ _ _ _ _ _ _ (by decide : Ticker.DDR4 ≠ Ticker.DDR5)]

/-- Deterministic session-step draws: zero shock, heads, magnitude 2. -/
def c6Rand : StepRand := ⟨fun _ => 0, fun _ => false, fun _ _ => 2⟩

/-- A concrete engine state one slot before the daily 8:30 crossing. -/
def c6St : EngineState :=
  ⟨c2Pd, exampleChances, ⟨0, 2, BASE_TICKER_PRICES⟩, []⟩

/-- A concrete engine state right after the daily 8:30 crossing. -/
def c6St1 : EngineState :=
  ⟨c2Pd, exampleChances, ⟨0, 0, BASE_TICKER_PRICES⟩, []⟩

/-- C6 counterexample: for a fractional requested count the batch does not
apply `clamp(n, 1, 20)` steps.  With `n = 1.5` the clamped count `1.5` is
returned, but the loop guard `s < count` runs `⌈1.5⌉ = 2` iterations, so the
session counter advances by 2, not by the returned count. -/
theorem C6_fractional_count_counterexample :
    (runSkipSessions (fun _ => c6Rand) (some (3 / 2)) c6St1).1 = 3 / 2 ∧
    (runSkipSessions (fun _ => c6Rand) (some (3 / 2)) c6St1).2.session.skipSessionCount =
      c6St1.session.skipSessionCount + 2 ∧
    (3 / 2 : ℚ) ≠ 2 := by
  refine ⟨by decide, ?_, by norm_num⟩
  have h2 : (runSkipSessions (fun _ => c6Rand) (some (3 / 2)) c6St1).2 =
      stepN (fun _ => c6Rand) (⌈max 1 (min 20 (jsNumOr (some (3 / 2 : ℚ)) 1))⌉.toNat)
        c6St1 := rfl
  have h3 : (⌈max 1 (min 20 (jsNumOr (some (3 / 2 : ℚ)) 1))⌉.toNat) = 2 := by decide
  rw [h2, h3, stepN_skipCount]
  norm_num

/-- C6: `runSkipSessions(n)` clamps the request to `[1, 20]`, returns the
clamped count and applies `⌈count⌉` session steps (exactly `n` steps for an
integer `n` in `[1, 20]`); each step advances the slot index modulo 3,
increments the skip counter by one, records one `session-skip` price entry per
ticker, and settles after the tick; steps whose post-increment slot index is 0
resync `priceToBeat` to the freshly ticked prices and reset the DAILY chances
to 50 with history `[50]`, other steps keep `priceToBeat` and truncate the
daily chance history; in any 3 consecutive steps the resync happens exactly
once. -/
theorem C6_session_batch :
    (∀ (rands : ℕ → StepRand) (sc : Option ℚ) (st : EngineState),
      (runSkipSessions rands sc st).1 = max 1 (min 20 (jsNumOr sc 1))) ∧
    (∀ (rands : ℕ → StepRand) (sc : Option ℚ) (st : EngineState),
      (runSkipSessions rands sc st).2.session.skipSessionCount =
        st.session.skipSessionCount +
          ((⌈max 1 (min 20 (jsNumOr sc 1))⌉.toNat : ℕ) : ℚ)) ∧
    (∀ (rands : ℕ → StepRand) (n : ℕ) (st : EngineState), 1 ≤ n → n ≤ 20 →
      (runSkipSessions rands (some (n : ℚ)) st).1 = (n : ℚ) ∧
      (runSkipSessions rands (some (n : ℚ)) st).2 = stepN rands n st) ∧
    (∀ (r : StepRand) (st : EngineState),
      (sessionStep r st).session.lastSessionSlotIndex =
        (st.session.lastSessionSlotIndex + 1) % 3 ∧
      (sessionStep r st).session.skipSessionCount = st.session.skipSessionCount + 1 ∧
      (sessionStep r st).prices = (tickAllTickers r st.prices st.chances).1 ∧
      (sessionStep r st).accounts =
        settleDuePredictionPositions (st.session.skipSessionCount + 1)
          (tickAllTickers r st.prices st.chances).1.currentPrices
          (tickAllTickers r st.prices st.chances).2 st.accounts) ∧
    (∀ (r : StepRand) (st : EngineState),
      (st.session.lastSessionSlotIndex + 1) % 3 = 0 →
      (sessionStep r st).session.priceToBeat =
        (fun t => toFixed 3 ((tickAllTickers r st.prices st.chances).1.currentPrices t)) ∧
      (∀ m ∈ dailyMarketIds, (sessionStep r st).chances.currentChances m = 50 ∧
        (sessionStep r st).chances.chanceHistory m = [50])) ∧
    (∀ (r : StepRand) (st : EngineState),
      (st.session.lastSessionSlotIndex + 1) % 3 ≠ 0 →
      (sessionStep r st).session.priceToBeat = st.session.priceToBeat ∧
      (sessionStep r st).chances =
        truncateDailyChances ((st.session.lastSessionSlotIndex + 1) % 3)
          (tickAllTickers r st.prices st.chances).2) ∧
    (∀ (r : StepRand) (pd : PricesData) (cd : ChancesData) (t : Ticker),
      ∃ e : PriceEntry, e.source = "session-skip" ∧
        (tickAllTickers r pd cd).1.priceHistory t =
          sliceLast 100 (pd.priceHistory t ++ [e])) ∧
    (∀ (rands : ℕ → StepRand) (st : EngineState),
      ∃! k, k < 3 ∧
        ((stepN rands k st).session.lastSessionSlotIndex + 1) % 3 = 0) := by
  refine ⟨?_, ?_, ?_, ?_, ?_, ?_, tickAll_history, ?_⟩
  · intro rands sc st
    rfl
  · intro rands sc st
    have h2 : (runSkipSessions rands sc st).2 =
        stepN rands (⌈max 1 (min 20 (jsNumOr sc 1))⌉.toNat) st := rfl
    rw [h2, stepN_skipCount]
  · intro rands n st hn1 hn2
    have hne : (n : ℚ) ≠ 0 := by
      have : n ≠ 0 := by omega
      exact_mod_cast this
    have hcount : max 1 (min 20 (jsNumOr (some (n : ℚ)) 1)) = (n : ℚ) := by
      rw [show jsNumOr (some (n : ℚ)) 1 = jsOrQ (n : ℚ) 1 from rfl, jsOrQ_of_ne hne]
      rw [min_eq_right (by exact_mod_cast hn2), max_eq_right (by exact_mod_cast hn1)]
    constructor
    · rw [show (runSkipSessions rands (some (n : ℚ)) st).1 =
          max 1 (min 20 (jsNumOr (some (n : ℚ)) 1)) from rfl, hcount]
    · rw [show (runSkipSessions rands (some (n : ℚ)) st).2 =
          stepN rands (⌈max 1 (min 20 (jsNumOr (some (n : ℚ)) 1))⌉.toNat) st from rfl,
        hcount, Int.ceil_natCast, Int.toNat_natCast]
  · intro r st
    exact ⟨sessionStep_slot r st, sessionStep_skip r st, sessionStep_prices r st,
      sessionStep_accounts r st⟩
  · intro r st h
    obtain ⟨hp, hc⟩ := sessionStep_reset_branch r st h
    refine ⟨hp, ?_⟩
    intro m hm
    rw [hc]
    exact resetDaily_values _ m hm
  · intro r st h
    exact sessionStep_else_branch r st h
  · intro rands st
    have h0 : (stepN rands 0 st).session.lastSessionSlotIndex =
        st.session.lastSessionSlotIndex := rfl
    have h1 := stepN_slot 0 rands st
    have h2 := stepN_slot 1 rands st
    norm_num at h1 h2
    refine ⟨if (st.session.lastSessionSlotIndex + 1) % 3 = 0 then 0
      else if (st.session.lastSessionSlotIndex + 2) % 3 = 0 then 1 else 2, ?_, ?_⟩
    · split_ifs with ha hb
      · exact ⟨by norm_num, by rw [h0]; exact ha⟩
      · refine ⟨by norm_num, ?_⟩
        rw [h1]
        omega
      · refine ⟨by norm_num, ?_⟩
        rw [h2]
        omega
    · intro y hy
      obtain ⟨hy3, hcond⟩ := hy
      have hy0 : y = 0 ∨ y = 1 ∨ y = 2 := by omega
      rcases hy0 with rfl | rfl | rfl
      · rw [h0] at hcond
        split_ifs with ha hb <;> omega
      · rw [h1] at hcond
        split_ifs with ha hb <;> omega
      · rw [h2] at hcond
        split_ifs with ha hb <;> omega

theorem C6_session_batch_witness :
    (runSkipSessions (fun _ => c6Rand) (some 5) c6St).1 = max 1 (min 20 (jsNumOr (some 5) 1)) ∧
    (runSkipSessions (fun _ => c6Rand) (some ((3 : ℕ) : ℚ)) c6St).1 = ((3 : ℕ) : ℚ) ∧
    (runSkipSessions (fun _ => c6Rand) (some ((3 : ℕ) : ℚ)) c6St).2 =
      stepN (fun _ => c6Rand) 3 c6St ∧
    (sessionStep c6Rand c6St).session.lastSessionSlotIndex =
      (c6St.session.lastSessionSlotIndex + 1) % 3 ∧
    (sessionStep c6Rand c6St).session.priceToBeat =
      (fun t => toFixed 3 ((tickAllTickers c6Rand c6St.prices c6St.chances).1.currentPrices t)) ∧
    (sessionStep c6Rand c6St).chances.currentChances MarketId.m2 = 50 ∧
    (sessionStep c6Rand c6St1).session.priceToBeat = c6St1.session.priceToBeat ∧
    ∃! k, k < 3 ∧
      ((stepN (fun _ => c6Rand) k c6St).session.lastSessionSlotIndex + 1) % 3 = 0 :=
  ⟨C6_session_batch.1 (fun _ => c6Rand) (some 5) c6St,
   (C6_session_batch.2.2.1 (fun _ => c6Rand) 3 c6St (by norm_num) (by norm_num)).1,
   (C6_session_batch.2.2.1 (fun _ => c6Rand) 3 c6St (by norm_num) (by norm_num)).2,
   (C6_session_batch.2.2.2.1 c6Rand c6St).1,
   (C6_session_batch.2.2.2.2.1 c6Rand c6St (by decide)).1,
   ((C6_session_batch.2.2.2.2.1 c6Rand c6St (by decide)).2 MarketId.m2 (by decide)).1,
   (C6_session_batch.2.2.2.2.2.1 c6Rand c6St1 (by decide)).1,
   C6_session_batch.2.2.2.2.2.2.2 (fun _ => c6Rand) c6St⟩

end PrototypeTrading
